import Mathlib

set_option autoImplicit false

/-!
Verification model of the figma-qa-issue-sync repository.

The repository has three source artefacts:
* `src/unnamed/part_000` — the design-tool plugin (collector, signature engine,
  sync-record store, transport client, reconciliation after a sync);
* `src/unnamed/part_001` — an earlier, smaller variant of the same plugin with
  the same signature/record/reconciliation logic;
* `src/api/qa-issues.js` — the remote sync service (batch issue creation,
  project-board resolution, project attachment).

The definitions below are a shallow embedding of those files.  External
capabilities (the design-document tree, the HTTP fetch, the remote tracker,
the GraphQL board API, the JS runtime's `JSON.parse`/`JSON.stringify`) are
modelled explicitly: the JSON codec as an executable parser/renderer over
character lists, the remote calls as outcome parameters supplied per call.
-/

/-! ### JSON values (model of the JS runtime's JSON data) -/

/-- A JSON value.  Numbers keep their source token: the model never does
numeric arithmetic on them, and JS `===` never equates a number with the
strings the sync records store, so token-level identity suffices. -/
inductive Json where
  | null
  | bool (b : Bool)
  | num (raw : String)
  | str (s : String)
  | arr (elems : List Json)
  | obj (fields : List (String × Json))

/-- JS `===` between an array element and a string `s`: true exactly when the
element is the string `s`.  This is what `Array.prototype.includes` uses. -/
def Json.eqStr : Json → String → Bool
  | .str t, s => t == s
  | _, _ => false

/-! ### A JSON parser (model of `JSON.parse`)

Structural on the input where possible, fuelled where JSON's own recursion
requires it.  `jsonParse s = none` models `JSON.parse(s)` throwing. -/

def isWsChar (c : Char) : Bool :=
  c.toNat = 32 || c.toNat = 9 || c.toNat = 10 || c.toNat = 13

def isDigitChar (c : Char) : Bool := '0' ≤ c && c ≤ '9'

def skipWs : List Char → List Char
  | [] => []
  | c :: rest => if isWsChar c then skipWs rest else c :: rest

def takeDigits : List Char → List Char × List Char
  | [] => ([], [])
  | c :: rest =>
    if isDigitChar c then
      let (ds, r) := takeDigits rest
      (c :: ds, r)
    else ([], c :: rest)

def hexVal (c : Char) : Option Nat :=
  let n := c.toNat
  if 48 ≤ n && n ≤ 57 then some (n - 48)
  else if 97 ≤ n && n ≤ 102 then some (n - 87)
  else if 65 ≤ n && n ≤ 70 then some (n - 55)
  else none

/-- Prepend a decoded character to a string-body parse result. -/
def pushC (c : Char) : Option (List Char × List Char) → Option (List Char × List Char)
  | some (cs, rest) => some (c :: cs, rest)
  | none => none

/-- Parse the body of a JSON string literal, after the opening quote, up to and
including the closing quote; returns the decoded characters and the rest. -/
def parseStringBody : List Char → Option (List Char × List Char)
  | [] => none
  | c :: rest =>
    if c = '"' then some ([], rest)
    else if c = '\\' then
      match rest with
      | [] => none
      | e :: rest2 =>
        if e = '"' then pushC '"' (parseStringBody rest2)
        else if e = '\\' then pushC '\\' (parseStringBody rest2)
        else if e = '/' then pushC '/' (parseStringBody rest2)
        else if e = 'b' then pushC (Char.ofNat 8) (parseStringBody rest2)
        else if e = 'f' then pushC (Char.ofNat 12) (parseStringBody rest2)
        else if e = 'n' then pushC '\n' (parseStringBody rest2)
        else if e = 'r' then pushC (Char.ofNat 13) (parseStringBody rest2)
        else if e = 't' then pushC '\t' (parseStringBody rest2)
        else if e = 'u' then
          match rest2 with
          | h1 :: h2 :: h3 :: h4 :: rest3 =>
            match hexVal h1, hexVal h2, hexVal h3, hexVal h4 with
            | some a, some b, some c2, some d =>
              pushC (Char.ofNat (((a * 16 + b) * 16 + c2) * 16 + d)) (parseStringBody rest3)
            | _, _, _, _ => none
          | _ => none
        else none
    else if c.toNat < 32 then none
    else pushC c (parseStringBody rest)

/-- Parse the integer part of a JSON number: `0`, or a nonzero digit followed
by digits (JSON forbids redundant leading zeros). -/
def parseIntPart : List Char → Option (List Char × List Char)
  | [] => none
  | c :: rest =>
    if c = '0' then some (['0'], rest)
    else if '1' ≤ c && c ≤ '9' then
      let (ds, r) := takeDigits rest
      some (c :: ds, r)
    else none

def parseFracPart (cs : List Char) : Option (List Char × List Char) :=
  match cs with
  | '.' :: rest =>
    let (ds, r) := takeDigits rest
    if ds = [] then none else some ('.' :: ds, r)
  | _ => some ([], cs)

def parseExpPart (cs : List Char) : Option (List Char × List Char) :=
  match cs with
  | e :: rest =>
    if e = 'e' ∨ e = 'E' then
      match rest with
      | s :: rest2 =>
        if s = '+' ∨ s = '-' then
          let (ds, r) := takeDigits rest2
          if ds = [] then none else some (e :: s :: ds, r)
        else
          let (ds, r) := takeDigits rest
          if ds = [] then none else some (e :: ds, r)
      | [] => none
    else some ([], cs)
  | [] => some ([], cs)

/-- Parse a JSON numeric literal, returning its raw token. -/
def parseNumberRaw (cs : List Char) : Option (List Char × List Char) :=
  let (sign, cs1) := match cs with
    | '-' :: r => (['-'], r)
    | _ => (([] : List Char), cs)
  match parseIntPart cs1 with
  | none => none
  | some (ip, cs2) =>
    match parseFracPart cs2 with
    | none => none
    | some (fp, cs3) =>
      match parseExpPart cs3 with
      | none => none
      | some (ep, cs4) => some (sign ++ ip ++ fp ++ ep, cs4)

mutual

def parseValue : Nat → List Char → Option (Json × List Char)
  | 0, _ => none
  | fuel + 1, cs =>
    match skipWs cs with
    | 'n' :: 'u' :: 'l' :: 'l' :: rest => some (.null, rest)
    | 't' :: 'r' :: 'u' :: 'e' :: rest => some (.bool true, rest)
    | 'f' :: 'a' :: 'l' :: 's' :: 'e' :: rest => some (.bool false, rest)
    | '"' :: rest =>
      match parseStringBody rest with
      | some (body, rest2) => some (.str (String.mk body), rest2)
      | none => none
    | '[' :: rest =>
      match skipWs rest with
      | ']' :: rest2 => some (.arr [], rest2)
      | cs2 => parseElemsLoop fuel cs2 []
    | '{' :: rest =>
      match skipWs rest with
      | '}' :: rest2 => some (.obj [], rest2)
      | cs2 => parseFieldsLoop fuel cs2 []
    | cs2 =>
      match parseNumberRaw cs2 with
      | some (raw, rest) => some (.num (String.mk raw), rest)
      | none => none

def parseElemsLoop : Nat → List Char → List Json → Option (Json × List Char)
  | 0, _, _ => none
  | fuel + 1, cs, acc =>
    match parseValue fuel cs with
    | none => none
    | some (v, rest) =>
      match skipWs rest with
      | ',' :: rest2 => parseElemsLoop fuel rest2 (acc ++ [v])
      | ']' :: rest2 => some (.arr (acc ++ [v]), rest2)
      | _ => none

def parseFieldsLoop : Nat → List Char → List (String × Json) → Option (Json × List Char)
  | 0, _, _ => none
  | fuel + 1, cs, acc =>
    match skipWs cs with
    | '"' :: rest =>
      match parseStringBody rest with
      | none => none
      | some (key, rest1) =>
        match skipWs rest1 with
        | ':' :: rest2 =>
          match parseValue fuel rest2 with
          | none => none
          | some (v, rest3) =>
            match skipWs rest3 with
            | ',' :: rest4 => parseFieldsLoop fuel rest4 (acc ++ [(String.mk key, v)])
            | '}' :: rest4 => some (.obj (acc ++ [(String.mk key, v)]), rest4)
            | _ => none
        | _ => none
    | _ => none

end

/-- Model of `JSON.parse`: `none` models a thrown `SyntaxError`. -/
def jsonParse (s : String) : Option Json :=
  match parseValue (s.data.length + 1) s.data with
  | some (v, rest) => if skipWs rest = [] then some v else none
  | none => none

/-! ### A JSON renderer (model of `JSON.stringify`) -/

/-- Escape one character the way `JSON.stringify` does. -/
def escJson (c : Char) : List Char :=
  if c = '"' then ['\\', '"']
  else if c = '\\' then ['\\', '\\']
  else if c = Char.ofNat 8 then ['\\', 'b']
  else if c = '\t' then ['\\', 't']
  else if c = '\n' then ['\\', 'n']
  else if c = Char.ofNat 12 then ['\\', 'f']
  else if c = Char.ofNat 13 then ['\\', 'r']
  else if c.toNat < 32 then
    ['\\', 'u', '0', '0',
     (if c.toNat / 16 = 1 then '1' else '0'),
     (if c.toNat % 16 < 10 then Char.ofNat (48 + c.toNat % 16)
      else Char.ofNat (87 + c.toNat % 16))]
  else [c]

def quoteChars (s : List Char) : List Char := '"' :: s.flatMap escJson ++ ['"']

mutual

def stringifyChars : Json → List Char
  | .null => "null".data
  | .bool true => "true".data
  | .bool false => "false".data
  | .num raw => raw.data
  | .str s => quoteChars s.data
  | .arr l => '[' :: elemsChars l ++ [']']
  | .obj fs => '{' :: fieldsChars fs ++ ['}']

def elemsChars : List Json → List Char
  | [] => []
  | [v] => stringifyChars v
  | v :: rest => stringifyChars v ++ ',' :: elemsChars rest

def fieldsChars : List (String × Json) → List Char
  | [] => []
  | [(k, v)] => quoteChars k.data ++ ':' :: stringifyChars v
  | (k, v) :: rest => (quoteChars k.data ++ ':' :: stringifyChars v) ++ ',' :: fieldsChars rest

end

/-- Model of `JSON.stringify`. -/
def jsonStringify (v : Json) : String := String.mk (stringifyChars v)

/-! ### Signature Engine (`hashString`, part_000 lines 625-631) -/

/-- UTF-16 code units of a string, as `charCodeAt` iterates them. -/
def utf16Codes (s : String) : List Nat :=
  s.data.flatMap fun c =>
    let n := c.toNat
    if n < 65536 then [n]
    else [55296 + (n - 65536) / 1024, 56320 + (n - 65536) % 1024]

def hexDigitChar (n : Nat) : Char :=
  match n with
  | 0 => '0' | 1 => '1' | 2 => '2' | 3 => '3' | 4 => '4' | 5 => '5' | 6 => '6' | 7 => '7'
  | 8 => '8' | 9 => '9' | 10 => 'a' | 11 => 'b' | 12 => 'c' | 13 => 'd' | 14 => 'e'
  | _ => 'f'

/-- Lowercase hexadecimal digits of `n`, as JS `Number.prototype.toString(16)`
renders a nonnegative integer. -/
def natToHexAux : Nat → Nat → List Char → List Char
  | 0, _, acc => acc
  | fuel + 1, n, acc =>
    let d := hexDigitChar (n % 16)
    if n / 16 = 0 then d :: acc else natToHexAux fuel (n / 16) (d :: acc)

def natToHex (n : Nat) : String := String.mk (natToHexAux (n + 1) n [])

/-- `hashString` (part_000 lines 625-631): 32-bit polynomial rolling hash over
the UTF-16 code units, rendered as lowercase hex. -/
def hashString (value : String) : String :=
  natToHex ((utf16Codes value).foldl (fun h c => (h * 31 + c) % 4294967296) 0)

/-- The string hashed for an annotation's signature:
`` `${node.id}|${annotation.categoryId ?? ''}|${annotationText}` ``
(part_000 lines 163-165). -/
def signatureInput (nodeId categoryId text : String) : String :=
  nodeId ++ "|" ++ categoryId ++ "|" ++ text

/-- The signature of an annotation (part_000 lines 163-165). -/
def signatureOf (nodeId categoryId text : String) : String :=
  hashString (signatureInput nodeId categoryId text)

/-! ### Sync-State Tracker (blob-level, part_000 lines 598-623)

A node's sync record is the string blob stored under the plugin-data key
`qaIssueSynced`; `getPluginData` returns `''` when nothing is stored. -/

/-- `isSignatureSynced` (part_000 lines 598-607): falsy blob → false; parse
failure → false; `Array.isArray` guard → false on non-arrays; otherwise
`parsed.includes(signature)`. -/
def isSignatureSynced (stored signature : String) : Bool :=
  if stored = "" then false
  else
    match jsonParse stored with
    | none => false
    | some v =>
      match v with
      | .arr l => l.any (fun e => e.eqStr signature)
      | _ => false

/-- JS `String.prototype.includes`: contiguous substring test. -/
def strIncludesJs (s sub : String) : Bool := decide (sub.data <:+: s.data)

/-- Outcome of one `markSignatureSynced` call. -/
inductive MarkResult where
  | noWrite
  | write (blob : String)
  | throwsTypeError
deriving DecidableEq

/-- `markSignatureSynced` (part_000 lines 609-623).  The parse step treats a
falsy or unparseable blob as `[]`; there is no `Array.isArray` guard, so on a
parsed non-array value `parsed.includes` / `parsed.push` is a JS `TypeError`
— except that a parsed string does have `.includes` (substring test), and only
reaches the `.push` TypeError when the substring test fails. -/
def markSignatureSynced (stored signature : String) : MarkResult :=
  let parsed : Json :=
    if stored = "" then .arr []
    else
      match jsonParse stored with
      | some v => v
      | none => .arr []
  match parsed with
  | .arr l =>
    if l.any (fun e => e.eqStr signature) then .noWrite
    else .write (jsonStringify (.arr (l ++ [.str signature])))
  | .str s => if strIncludesJs s signature then .noWrite else .throwsTypeError
  | _ => .throwsTypeError

/-- The blob after a `markSignatureSynced` call that did not throw. -/
def markAfterBlob (stored signature : String) : String :=
  match markSignatureSynced stored signature with
  | .write b => b
  | _ => stored

/-! ### Client data model (part_000 lines 1-40, 138-199) -/

/-- JS truthiness for an optional string: `undefined` and `''` are falsy. -/
def truthyStr : Option String → Option String
  | some s => if s = "" then none else some s
  | none => none

/-- `x || d` for an optional string `x` and default `d`. -/
def truthyD (o : Option String) (d : String) : String :=
  match o with
  | some s => if s = "" then d else s
  | none => d

/-- An annotation as read from the design tool (`Annotation`): category
identity, markdown body, plain-label body. -/
structure Annot where
  categoryId : Option String
  labelMarkdown : Option String
  label : Option String
deriving DecidableEq

/-- One annotated node of the document: its stable id, its annotations, and
the plugin-data blob stored under `qaIssueSynced` (`''` when absent).  The
document tree itself is an external capability; the collector only ever sees
the traversal-ordered list of annotated nodes, so that is the model. -/
structure NodeState where
  nodeId : String
  annotations : List Annot
  pluginData : String
deriving DecidableEq

/-- `IssueRequestItem` (part_000 lines 12-18). -/
structure IssueRequestItem where
  title : String
  body : String
  labels : List String
  nodeId : String
  signature : String
deriving DecidableEq

/-- `annotation.labelMarkdown ?? annotation.label ?? ''` (line 162):
nullish-coalescing, so an empty string in `labelMarkdown` is kept. -/
def annotText (a : Annot) : String :=
  ((a.labelMarkdown).orElse fun _ => a.label).getD ""

/-- The Batch Collector (part_000 lines 145-194): for every annotated node in
traversal order, for every annotation of the QA category, compute the
signature and — unless `skipSynced` finds it in the node's sync record —
emit an `IssueRequestItem`.  Title and body derivation walk the external
design tree (`getComponentName`, `buildIssueBody`), so they are injected. -/
def collectIssues (titleOf bodyOf : NodeState → Annot → String) (labelSetting qaId : String)
    (skipSynced : Bool) (doc : List NodeState) : List IssueRequestItem :=
  doc.flatMap fun node =>
    node.annotations.filterMap fun a =>
      if a.categoryId = some qaId then
        let sig := signatureOf node.nodeId (a.categoryId.getD "") (annotText a)
        if skipSynced && isSignatureSynced node.pluginData sig then none
        else
          some ⟨titleOf node a, bodyOf node a,
                [if labelSetting = "" then "QA" else labelSetting], node.nodeId, sig⟩
      else none

/-! ### Transport Client (`fetchWithTimeout`, part_000 lines 340-360) -/

/-- One `IssueResultItem` as the client reads it back (part_000 lines 20-26). -/
structure ResItemC where
  nodeId : Option String
  signature : Option String
  status : Option Nat
deriving DecidableEq

/-- The parsed JSON body of the sync response (part_000 line 228). -/
structure RespData where
  created : Option Nat
  failed : Option Nat
  results : Option (List ResItemC)

structure ClientResp where
  status : Nat
  statusText : String
  bodyText : String
  data : RespData

/-- How the underlying `fetch` promise behaves on this call: settles at time
`t` (milliseconds since the call) with a response or a rejection, or never
settles. -/
inductive FetchBehavior where
  | resolves (t : Nat) (resp : ClientResp)
  | rejects (t : Nat) (message : String)
  | hangs

/-- When the fetch promise settles, if ever. -/
def settleTime : FetchBehavior → Option Nat
  | .resolves t _ => some t
  | .rejects t _ => some t
  | .hangs => none

/-- `fetchWithTimeout` (part_000 lines 340-360): a race between the fetch and
a timer that rejects with `Error('Timeout')` after `timeoutMs`.  If the fetch
settles strictly before the timer fires, its outcome wins; otherwise the
promise has already rejected with `'Timeout'`. -/
def fetchWithTimeout (timeoutMs : Nat) (fb : FetchBehavior) : Except String ClientResp :=
  match fb with
  | .resolves t r => if t < timeoutMs then .ok r else .error "Timeout"
  | .rejects t m => if t < timeoutMs then .error m else .error "Timeout"
  | .hangs => .error "Timeout"

/-- The timeout the sync run passes to `fetchWithTimeout` (part_000 line 217). -/
def syncFetchTimeoutMs : Nat := 20000

/-- The catch clause of `syncQaAnnotations` (part_000 lines 246-251): the
`'Timeout'` rejection gets a dedicated message, anything else the generic
request-failure message. -/
def requestFailedMessage (m : String) : String :=
  if m = "Timeout" then "요청 시간이 초과되었습니다. 네트워크/엔드포인트를 확인해주세요."
  else "요청 실패: " ++ m

/-- The non-2xx whole-response message (part_000 lines 220-224). -/
def serverErrorMessage (st : Nat) (statusText bodyText : String) : String :=
  "서버 에러 (" ++ toString st ++ "): " ++ (if bodyText = "" then statusText else bodyText)

/-! ### Caller-side reconciliation (part_000 lines 206-251) -/

/-- What the transport produced for this run: a response (any status), or a
thrown error (network failure, or the `'Timeout'` rejection). -/
inductive SendOutcome where
  | response (status : Nat) (statusText : String) (bodyText : String) (data : RespData)
  | failure (message : String)

/-- What the run reports to the UI at the end. -/
inductive SyncMsg where
  | error (message : String)
  | errorThrown
  | empty
  | done (createdCount failedCount : Nat)
deriving DecidableEq

/-- A result item qualifies for marking (part_000 lines 232-240) when its
`nodeId` and `signature` are truthy, the node is in this run's `nodeMap`, and
its status is truthy and in `[200, 300)`. -/
def statusOkC : Option Nat → Bool
  | some st => decide (200 ≤ st ∧ st < 300)
  | none => false

def qualifies (ids : List String) (r : ResItemC) : Option (String × String) :=
  match truthyStr r.nodeId, truthyStr r.signature with
  | some nid, some sig =>
    if nid ∈ ids ∧ statusOkC r.status then some (nid, sig)
    else none
  | _, _ => none

/-- Apply one `markSignatureSynced(node, sig)` call to the document: the
`nodeMap` holds live references, so the node with that id is updated in
place.  `none` models the call throwing (caught by the outer `try`). -/
def applyMark (nid sig : String) : List NodeState → Option (List NodeState)
  | [] => some []
  | n :: rest =>
    if n.nodeId = nid then
      match markSignatureSynced n.pluginData sig with
      | .noWrite => (applyMark nid sig rest).map (n :: ·)
      | .write b => (applyMark nid sig rest).map ({ n with pluginData := b } :: ·)
      | .throwsTypeError => none
    else (applyMark nid sig rest).map (n :: ·)

/-- The reconciliation loop (part_000 lines 232-240), instrumented with the
list of `(nodeId, signature)` pairs passed to `markSignatureSynced` and the
`createdCount`; the final `Bool` records whether a mark call threw (in which
case the loop stops and the outer `catch` reports an error). -/
def reconcileResults (ids : List String) :
    List NodeState → List (String × String) → Nat → List ResItemC →
    List NodeState × List (String × String) × Nat × Bool
  | doc, marks, cnt, [] => (doc, marks, cnt, false)
  | doc, marks, cnt, r :: rest =>
    match qualifies ids r with
    | none => reconcileResults ids doc marks cnt rest
    | some (nid, sig) =>
      match applyMark nid sig doc with
      | some doc2 => reconcileResults ids doc2 (marks ++ [(nid, sig)]) (cnt + 1) rest
      | none => (doc, marks ++ [(nid, sig)], cnt, true)

/-- The send-and-reconcile tail of `syncQaAnnotations` (part_000 lines
206-251), after a nonempty batch was collected: a thrown fetch is caught with
`requestFailedMessage`; a non-2xx response reports the server error and
touches nothing; a 2xx response is reconciled item by item. -/
def syncQaAfterSend (ids : List String) (doc : List NodeState) (o : SendOutcome) :
    List NodeState × SyncMsg :=
  match o with
  | .failure m => (doc, .error (requestFailedMessage m))
  | .response st stext btext data =>
    if 200 ≤ st ∧ st ≤ 299 then
      match reconcileResults ids doc [] 0 (data.results.getD []) with
      | (doc2, _, cnt, thrown) =>
        if thrown then (doc2, .errorThrown) else (doc2, .done cnt (data.failed.getD 0))
    else (doc, .error (serverErrorMessage st stext btext))

/-- One whole `syncQaAnnotations` run (part_000 lines 101-252), from the
point where settings and the QA category have been validated: collect; if the
batch is empty report so and send nothing; otherwise send and reconcile. -/
def syncQaRun (titleOf bodyOf : NodeState → Annot → String) (labelSetting qaId : String)
    (skipSynced : Bool) (doc : List NodeState) (o : SendOutcome) :
    List NodeState × SyncMsg :=
  let issues := collectIssues titleOf bodyOf labelSetting qaId skipSynced doc
  if issues = [] then (doc, .empty)
  else syncQaAfterSend (issues.map IssueRequestItem.nodeId) doc o

/-- `resetSyncedAnnotations` (part_000 lines 301-338): every node whose blob
is truthy gets it overwritten with `''`; returns the cleared-node count. -/
def resetSyncedNodes (doc : List NodeState) : List NodeState × Nat :=
  (doc.map fun n => if n.pluginData = "" then n else { n with pluginData := "" },
   (doc.filter fun n => n.pluginData ≠ "").length)

/-! ### Remote Sync Service (src/api/qa-issues.js lines 47-134) -/

/-- One item of the request body's `issues` array as the service reads it,
with JS-optional fields.  `labels` is passed through to the tracker call and
never read otherwise. -/
structure ReqItem where
  title : Option String
  body : Option String
  nodeId : Option String
  signature : Option String
deriving DecidableEq

/-- The parsed JSON body of the tracker's issue-creation response
(`{}` when the body fails to parse). -/
structure TrackerBody where
  message : Option String
  html_url : Option String
  node_id : Option String
deriving DecidableEq

/-- Outcome of one tracker issue-creation `fetch` (lines 87-102): a response
with some status and parsed body, or a thrown network error. -/
inductive TrackerOutcome where
  | response (status : Nat) (statusText : String) (body : TrackerBody)
  | thrown (message : Option String)
deriving DecidableEq

/-- The `projectStatus` value attached to a success result (lines 136-170). -/
structure ProjStatus where
  status : Nat
  error : Option String
deriving DecidableEq

/-- Outcome of the GraphQL attach call (lines 140-159): a response carrying
the GraphQL `errors` messages (when the key is present) and a top-level
`message`, or a thrown network error. -/
inductive AttachOutcome where
  | response (status : Nat) (statusText : String) (errors : Option (List String))
      (message : Option String)
  | thrown (message : Option String)
deriving DecidableEq

/-- `payload.errors.map(e => e.message).join('; ')`. -/
def joinMessages : List String → String
  | [] => ""
  | [m] => m
  | m :: rest => m ++ "; " ++ joinMessages rest

/-- `addIssueToProject` (lines 136-170): skipped (returns `undefined`) unless
both ids are truthy; reports `{status, error}` when the response is non-2xx
or carries GraphQL errors, `{status}` otherwise, and `{status: 0, error}` on
a thrown fetch — never propagating an exception. -/
def addIssueToProject (projectId contentId : Option String) (aw : AttachOutcome) :
    Option ProjStatus :=
  match truthyStr projectId, truthyStr contentId with
  | some _, some _ =>
    match aw with
    | .thrown m => some ⟨0, some (truthyD m "Unknown error")⟩
    | .response st stext errs msg =>
      let ok : Bool := decide (200 ≤ st ∧ st ≤ 299)
      let hasErrs : Bool := match errs with
        | some l => !l.isEmpty
        | none => false
      if !ok || hasErrs then
        some ⟨st, some (match errs with
          | some l => joinMessages l
          | none => truthyD msg stext)⟩
      else some ⟨st, none⟩
  | _, _ => none

/-- One entry of the service's `results` array. -/
structure ResItem where
  nodeId : Option String
  signature : Option String
  status : Nat
  url : Option String
  error : Option String
  projectStatus : Option ProjStatus
deriving DecidableEq

/-- The per-item branch of the service loop (lines 66-131).  The returned
`Bool` is true when the item counts as created (`created += 1`), false when
it counts as failed (`failed += 1`). -/
def processItem (pid : Option String) (item : ReqItem) (tr : TrackerOutcome)
    (aw : AttachOutcome) : Bool × ResItem :=
  if (truthyStr item.title).isNone || (truthyStr item.body).isNone then
    (false, ⟨item.nodeId, item.signature, 400, none, some "Missing title or body", none⟩)
  else
    match tr with
    | .thrown m =>
      (false, ⟨item.nodeId, item.signature, 500, none, some (truthyD m "Unknown error"), none⟩)
    | .response st stext body =>
      if 200 ≤ st ∧ st ≤ 299 then
        (true, ⟨item.nodeId, item.signature, st, body.html_url, none,
                addIssueToProject pid body.node_id aw⟩)
      else
        (false, ⟨item.nodeId, item.signature, st, none, some (truthyD body.message stext), none⟩)

/-- The service loop (lines 66-131): sequential, one tracker call (and at
most one attach call) per item, pushing one result per item and incrementing
exactly one of the two counters.  `world i` is the external outcome of item
`i`'s remote calls. -/
def processIssuesGo (pid : Option String) (world : Nat → TrackerOutcome × AttachOutcome)
    (i c f : Nat) (acc : List ResItem) : List ReqItem → Nat × Nat × List ResItem
  | [] => (c, f, acc)
  | item :: rest =>
    match processItem pid item (world i).1 (world i).2 with
    | (true, r) => processIssuesGo pid world (i + 1) (c + 1) f (acc ++ [r]) rest
    | (false, r) => processIssuesGo pid world (i + 1) c (f + 1) (acc ++ [r]) rest

def processIssues (pid : Option String) (world : Nat → TrackerOutcome × AttachOutcome)
    (items : List ReqItem) : Nat × Nat × List ResItem :=
  processIssuesGo pid world 0 0 0 [] items

/-- The request payload after JSON parsing (line 38): `issues` is `some` only
when the field is an array. -/
structure Payload where
  owner : Option String
  repo : Option String
  issues : Option (List ReqItem)

inductive HandlerResult where
  | badRequest (error : String)
  | okResponse (created failed : Nat) (results : List ResItem)
deriving DecidableEq

/-- The handler from the payload-shape guard on (lines 43-133): missing
owner/repo/issues is a 400; otherwise the batch is processed and answered
with HTTP 200 `{created, failed, results}`. -/
def handleSync (p : Payload) (pid : Option String)
    (world : Nat → TrackerOutcome × AttachOutcome) : HandlerResult :=
  if (truthyStr p.owner).isSome && (truthyStr p.repo).isSome then
    match p.issues with
    | some issues =>
      match processIssues pid world issues with
      | (c, f, rs) => .okResponse c f rs
    | none => .badRequest "Invalid payload: owner, repo, issues required"
  else .badRequest "Invalid payload: owner, repo, issues required"

/-! ### Project Board Resolver (src/api/qa-issues.js lines 50-64, 172-286) -/

inductive OwnerType where
  | org
  | user
deriving DecidableEq

/-- A node of the `projectsV2` list: `{id, title}`. -/
structure ProjNode where
  id : Option String
  title : String
deriving DecidableEq

/-- Outcome of one `fetchProjectList` GraphQL call: thrown fetch, non-2xx
response (the function returns `null`), or a 2xx response whose optional
chain `data?.<owner>?.projectsV2?.nodes` yields `nodes` (`none` models any
link of the chain missing). -/
inductive ListOutcome where
  | thrownNet
  | notOk
  | okData (nodes : Option (List ProjNode))
deriving DecidableEq

/-- Outcome of one `fetchProjectByNumber` GraphQL call. -/
inductive NumOutcome where
  | thrownNet
  | notOk
  | okProj (proj : Option ProjNode)
deriving DecidableEq

/-- `project?.id` truthiness: the id must be present and nonempty. -/
def projTruthyId (p : Option ProjNode) : Option String :=
  match p with
  | some pr => truthyStr pr.id
  | none => none

/-- `fetchProjectList` (lines 196-239): the query always asks for
`projectsV2(first: 50)`, so the world is indexed by the page size passed;
a thrown fetch propagates, a non-2xx response returns `null`. -/
def fetchProjectList (w : OwnerType → Nat → ListOutcome) (t : OwnerType) :
    Except Unit (Option (List ProjNode)) :=
  match w t 50 with
  | .thrownNet => .error ()
  | .notOk => .ok none
  | .okData nodes => .ok nodes

/-- `find(node => node.title === projectName)`: exact, case-sensitive. -/
def findProjByTitle (nodes : Option (List ProjNode)) (name : String) : Option ProjNode :=
  match nodes with
  | some l => l.find? fun node => node.title == name
  | none => none

/-- `fetchProjectId` (lines 172-182): organization scope first, then user
scope, returning the first truthy id found by exact title, else `null`; a
thrown lookup propagates. -/
def fetchProjectId (w : OwnerType → Nat → ListOutcome) (name : String) :
    Except Unit (Option String) :=
  match fetchProjectList w OwnerType.org with
  | .error e => .error e
  | .ok orgNodes =>
    match projTruthyId (findProjByTitle orgNodes name) with
    | some i => .ok (some i)
    | none =>
      match fetchProjectList w OwnerType.user with
      | .error e => .error e
      | .ok userNodes =>
        match projTruthyId (findProjByTitle userNodes name) with
        | some i => .ok (some i)
        | none => .ok none

/-- `fetchProjectByNumber` (lines 241-286). -/
def fetchProjectByNumber (w : OwnerType → NumOutcome) (t : OwnerType) :
    Except Unit (Option ProjNode) :=
  match w t with
  | .thrownNet => .error ()
  | .notOk => .ok none
  | .okProj p => .ok p

/-- `fetchProjectIdByNumber` (lines 184-194). -/
def fetchProjectIdByNumber (w : OwnerType → NumOutcome) : Except Unit (Option String) :=
  match fetchProjectByNumber w OwnerType.org with
  | .error e => .error e
  | .ok orgProj =>
    match projTruthyId orgProj with
    | some i => .ok (some i)
    | none =>
      match fetchProjectByNumber w OwnerType.user with
      | .error e => .error e
      | .ok userProj =>
        match projTruthyId userProj with
        | some i => .ok (some i)
        | none => .ok none

/-- The caller's `try { ... } catch { projectId = null }` (lines 52-64). -/
def catchToNull : Except Unit (Option String) → Option String
  | .ok v => v
  | .error _ => none

/-- `Number(raw)` truthiness: `0` (and `NaN`, modelled as absent) is falsy. -/
def numTruthy : Option Int → Bool
  | some n => n != 0
  | none => false

/-- The resolver dispatch before the batch loop (lines 50-64): a truthy
numeric reference takes the by-number path, else a truthy name takes the
by-name path, else no project is resolved; either path degrades to `null`
on a thrown lookup. -/
def resolveProjectIdForRequest (num : Option Int) (name powner : Option String)
    (wNum : OwnerType → NumOutcome) (wList : OwnerType → Nat → ListOutcome) :
    Option String :=
  if numTruthy num && (truthyStr powner).isSome then
    catchToNull (fetchProjectIdByNumber wNum)
  else if (truthyStr name).isSome && (truthyStr powner).isSome then
    catchToNull (fetchProjectId wList (name.getD ""))
  else none

/-! #### Spec-side resolution contract

These two definitions transcribe §4.5 of the specification ("look up by
number scoped to organization first, then user, returning the first match;
… list up to a bounded page (reference: 50) … match by exact case-sensitive
title; returns null … if nothing matches … or the lookup call itself
fails"), to be compared with the source translation above. -/

def numOutcomeId (o : NumOutcome) : Option String :=
  match o with
  | .okProj p => projTruthyId p
  | _ => none

def specResolveByNumber (w : OwnerType → NumOutcome) : Option String :=
  if w OwnerType.org = NumOutcome.thrownNet then none
  else
    match numOutcomeId (w OwnerType.org) with
    | some i => some i
    | none =>
      if w OwnerType.user = NumOutcome.thrownNet then none
      else numOutcomeId (w OwnerType.user)

def listOutcomeId (o : ListOutcome) (name : String) : Option String :=
  match o with
  | .okData nodes => projTruthyId (findProjByTitle nodes name)
  | _ => none

def specResolveByName (w : OwnerType → Nat → ListOutcome) (name : String) : Option String :=
  if w OwnerType.org 50 = ListOutcome.thrownNet then none
  else
    match listOutcomeId (w OwnerType.org 50) name with
    | some i => some i
    | none =>
      if w OwnerType.user 50 = ListOutcome.thrownNet then none
      else listOutcomeId (w OwnerType.user 50) name

/-! ## Helper lemmas -/

theorem jsonParse_empty : jsonParse "" = none := rfl

theorem natToHexAux_ne_nil (fuel : Nat) : ∀ (n : Nat) (acc : List Char), acc ≠ [] →
    natToHexAux fuel n acc ≠ [] := by
  induction fuel with
  | zero => intro n acc h; exact h
  | succ f ih =>
    intro n acc _
    unfold natToHexAux
    split
    · exact List.cons_ne_nil _ _
    · exact ih _ _ (List.cons_ne_nil _ _)

theorem natToHex_ne_empty (n : Nat) : natToHex n ≠ "" := by
  intro h
  have hd := congrArg String.data h
  have : natToHexAux (n + 1) n [] ≠ [] := by
    unfold natToHexAux
    split
    · exact List.cons_ne_nil _ _
    · exact natToHexAux_ne_nil _ _ _ (List.cons_ne_nil _ _)
  exact this hd

theorem hashString_ne_empty (v : String) : hashString v ≠ "" := natToHex_ne_empty _


/-! ## C5 — signature distinctness -/

/-- C5 (counterexample): the Signature Engine does not separate all body
texts: with the same item id and category, the bodies `"Aa"` and `"BB"` are
distinct yet hash to the same signature, because the 32-bit rolling hash
satisfies `65 * 31 + 97 = 66 * 31 + 66`. -/
theorem signatureCollisionAaBB :
    signatureOf "1:1" "qa" "Aa" = signatureOf "1:1" "qa" "BB" ∧ ("Aa" : String) ≠ "BB" :=
  ⟨by decide, by decide⟩

/-- C5 (amended): two annotations on the same item with the same category but
different body texts always produce different hash inputs; the signatures
themselves can coincide only through a collision of the 32-bit hash. -/
theorem signatureInputInjectiveInBody (nodeId categoryId b1 b2 : String) (h : b1 ≠ b2) :
    signatureInput nodeId categoryId b1 ≠ signatureInput nodeId categoryId b2 := by
  intro he
  apply h
  apply String.ext
  have hd := congrArg String.data he
  simp only [signatureInput, String.data_append, List.append_assoc] at hd
  exact List.append_cancel_left (List.append_cancel_left
    (List.append_cancel_left (List.append_cancel_left hd)))

theorem signatureInputInjectiveInBodyW :
    signatureInput "1:1" "qa" "Aa" ≠ signatureInput "1:1" "qa" "BB" :=
  signatureInputInjectiveInBody "1:1" "qa" "Aa" "BB" (by decide)

/-! ## C7 — transport timeout -/

/-- C7: the send call runs under `fetchWithTimeout` with a fixed 20000 ms
bound; any fetch that settles at or after the bound (or never settles)
surfaces as the `'Timeout'` rejection, and the `'Timeout'` rejection is
mapped to a dedicated message distinct from the message of every other
(network) failure. -/
theorem transportTimeoutBoundDistinct :
    syncFetchTimeoutMs = 20000
    ∧ (∀ fb : FetchBehavior, (∀ t, settleTime fb = some t → syncFetchTimeoutMs ≤ t) →
        fetchWithTimeout syncFetchTimeoutMs fb = .error "Timeout")
    ∧ requestFailedMessage "Timeout" = "요청 시간이 초과되었습니다. 네트워크/엔드포인트를 확인해주세요."
    ∧ ∀ m, m ≠ "Timeout" → requestFailedMessage "Timeout" ≠ requestFailedMessage m := by
  refine ⟨rfl, ?_, rfl, ?_⟩
  · intro fb h
    cases fb with
    | resolves t r =>
      have ht := h t rfl
      simp [fetchWithTimeout, Nat.not_lt.mpr ht]
    | rejects t m =>
      have ht := h t rfl
      simp [fetchWithTimeout, Nat.not_lt.mpr ht]
    | hangs => rfl
  · intro m hm he
    rw [requestFailedMessage, if_pos rfl, requestFailedMessage, if_neg hm] at he
    have hd := congrArg String.data he
    rw [String.data_append] at hd
    have h7 := congrArg (List.take 7) hd
    rw [List.take_append_of_le_length (by decide)] at h7
    exact absurd h7 (by decide)

theorem transportTimeoutBoundDistinctW :
    fetchWithTimeout syncFetchTimeoutMs (FetchBehavior.rejects 20000 "down") = .error "Timeout"
    ∧ requestFailedMessage "Timeout" ≠ requestFailedMessage "Failed to fetch" :=
  ⟨transportTimeoutBoundDistinct.2.1 (FetchBehavior.rejects 20000 "down")
      (fun t ht => by simp [settleTime] at ht; simp [syncFetchTimeoutMs]; omega),
   transportTimeoutBoundDistinct.2.2.2 "Failed to fetch" (by decide)⟩

/-! ## C10 — totality of record reads/writes over stored blobs -/

/-- C10 (counterexample): on the stored blob `"5"` — valid JSON that is not
an array — `markSignatureSynced` does not treat the record as empty and
overwrite it with a one-element array: the missing `Array.isArray` guard
means `parsed.includes` is a thrown `TypeError`. -/
theorem markThrowsOnNonArrayJson :
    jsonParse "5" = some (Json.num "5")
    ∧ markSignatureSynced "5" "a1b2" = MarkResult.throwsTypeError
    ∧ markSignatureSynced "5" "a1b2"
        ≠ MarkResult.write (jsonStringify (Json.arr [Json.str "a1b2"])) :=
  ⟨rfl, rfl, by decide⟩

/-- C10 (amended): `isSignatureSynced` is total — it returns `false` on every
blob that is empty, invalid JSON, or valid JSON that is not an array — but
`markSignatureSynced` treats only empty or invalid-JSON blobs as an empty
record (overwriting with a one-element array); a blob that is valid JSON but
neither an array nor a string makes it throw a `TypeError`. -/
theorem recordOpsTotalOnMalformed :
    (∀ stored sig, (stored = "" ∨ jsonParse stored = none
        ∨ ∃ v, jsonParse stored = some v ∧ ∀ l, v ≠ Json.arr l) →
      isSignatureSynced stored sig = false)
    ∧ (∀ stored sig, stored = "" ∨ jsonParse stored = none →
        markSignatureSynced stored sig
          = MarkResult.write (jsonStringify (Json.arr [Json.str sig])))
    ∧ (∀ stored sig v, jsonParse stored = some v → (∀ l, v ≠ Json.arr l) →
        (∀ s, v ≠ Json.str s) → markSignatureSynced stored sig = MarkResult.throwsTypeError) := by
  refine ⟨?_, ?_, ?_⟩
  · intro stored sig h
    rcases h with h | h | ⟨v, hv, hna⟩
    · subst h; rfl
    · unfold isSignatureSynced
      rw [h]
      split <;> rfl
    · have hne : stored ≠ "" := by
        intro h0; subst h0; rw [jsonParse_empty] at hv; cases hv
      unfold isSignatureSynced
      rw [if_neg hne, hv]
      cases v with
      | arr l => exact absurd rfl (hna l)
      | _ => rfl
  · intro stored sig h
    rcases h with h | h
    · subst h; rfl
    · by_cases h0 : stored = ""
      · subst h0; rfl
      · unfold markSignatureSynced
        rw [if_neg h0, h]
        rfl
  · intro stored sig v hv hna hns
    have hne : stored ≠ "" := by
      intro h0; subst h0; rw [jsonParse_empty] at hv; cases hv
    unfold markSignatureSynced
    rw [if_neg hne, hv]
    cases v with
    | arr l => exact absurd rfl (hna l)
    | str s => exact absurd rfl (hns s)
    | _ => rfl

theorem recordOpsTotalOnMalformedW :
    isSignatureSynced "oops" "a1" = false
    ∧ markSignatureSynced "oops" "a1" = MarkResult.write (jsonStringify (Json.arr [Json.str "a1"]))
    ∧ markSignatureSynced "true" "a1" = MarkResult.throwsTypeError :=
  ⟨recordOpsTotalOnMalformed.1 "oops" "a1" (Or.inr (Or.inl rfl)),
   recordOpsTotalOnMalformed.2.1 "oops" "a1" (Or.inr rfl),
   recordOpsTotalOnMalformed.2.2 "true" "a1" (Json.bool true) rfl
     (fun _ h => Json.noConfusion h) (fun _ h => Json.noConfusion h)⟩

/-! ## Service loop helpers (shared by the service claims) -/

/-- The per-item outcomes of a batch, with `world` indexed from `i`. -/
def processedItems (pid : Option String) (world : Nat → TrackerOutcome × AttachOutcome)
    (i : Nat) : List ReqItem → List (Bool × ResItem)
  | [] => []
  | item :: rest =>
    processItem pid item (world i).1 (world i).2 :: processedItems pid world (i + 1) rest

theorem processedItems_length (pid : Option String)
    (world : Nat → TrackerOutcome × AttachOutcome) :
    ∀ (items : List ReqItem) (i : Nat), (processedItems pid world i items).length = items.length := by
  intro items
  induction items with
  | nil => intro i; rfl
  | cons item rest ih => intro i; simp [processedItems, ih]

theorem processIssuesGo_spec (pid : Option String)
    (world : Nat → TrackerOutcome × AttachOutcome) :
    ∀ (items : List ReqItem) (i c f : Nat) (acc : List ResItem),
      processIssuesGo pid world i c f acc items
        = (c + (processedItems pid world i items).countP (fun o => o.1),
           f + (processedItems pid world i items).countP (fun o => !o.1),
           acc ++ (processedItems pid world i items).map (fun o => o.2)) := by
  intro items
  induction items with
  | nil => intro i c f acc; simp [processIssuesGo, processedItems]
  | cons item rest ih =>
    intro i c f acc
    rcases hpi : processItem pid item (world i).1 (world i).2 with ⟨b, r⟩
    cases b with
    | true =>
      simp only [processIssuesGo, hpi, ih, processedItems, List.countP_cons, List.map_cons,
        Prod.mk.injEq]
      refine ⟨by simp; try omega, by simp; try omega, by simp⟩
    | false =>
      simp only [processIssuesGo, hpi, ih, processedItems, List.countP_cons, List.map_cons,
        Prod.mk.injEq]
      refine ⟨by simp; try omega, by simp; try omega, by simp⟩

theorem processIssues_spec (pid : Option String)
    (world : Nat → TrackerOutcome × AttachOutcome) (items : List ReqItem) :
    processIssues pid world items
      = ((processedItems pid world 0 items).countP (fun o => o.1),
         (processedItems pid world 0 items).countP (fun o => !o.1),
         (processedItems pid world 0 items).map (fun o => o.2)) := by
  simpa [processIssues] using processIssuesGo_spec pid world items 0 0 0 []

/-- Every branch of `processItem` copies the item's `nodeId` and `signature`
into the result verbatim. -/
theorem processItem_ids (pid : Option String) (item : ReqItem) (tr : TrackerOutcome)
    (aw : AttachOutcome) :
    ((processItem pid item tr aw).2.nodeId = item.nodeId)
    ∧ ((processItem pid item tr aw).2.signature = item.signature) := by
  unfold processItem
  split
  · exact ⟨rfl, rfl⟩
  · cases tr with
    | thrown m => exact ⟨rfl, rfl⟩
    | response st stext body =>
      by_cases h : 200 ≤ st ∧ st ≤ 299
      · simp [h]
      · simp [h]

theorem countP_bool_split {A : Type} (l : List (Bool × A)) :
    l.countP (fun o => o.1) + l.countP (fun o => !o.1) = l.length := by
  induction l with
  | nil => rfl
  | cons a t ih =>
    cases h : a.1 <;> simp [List.countP_cons, h] <;> omega

theorem processedItems_pairs (pid : Option String)
    (world : Nat → TrackerOutcome × AttachOutcome) :
    ∀ (items : List ReqItem) (i : Nat),
      (processedItems pid world i items).map (fun o => (o.2.nodeId, o.2.signature))
        = items.map (fun it => (it.nodeId, it.signature)) := by
  intro items
  induction items with
  | nil => intro i; rfl
  | cons item rest ih =>
    intro i
    simp only [processedItems, List.map_cons, ih]
    rw [(processItem_ids pid item (world i).1 (world i).2).1,
        (processItem_ids pid item (world i).1 (world i).2).2]

/-! ## C2 — result correlation and counter arithmetic -/

/-- C2: for a well-formed batch (truthy owner and repo, issues array
present), the service answers with one result per input item, in input
order, each echoing exactly the `nodeId` and `signature` the caller supplied
for that item, and `created + failed` equals the batch length. -/
theorem serviceResultsCorrelate (p : Payload) (pid : Option String)
    (world : Nat → TrackerOutcome × AttachOutcome) (issues : List ReqItem)
    (howner : (truthyStr p.owner).isSome = true)
    (hrepo : (truthyStr p.repo).isSome = true)
    (hissues : p.issues = some issues) :
    ∃ c f rs, handleSync p pid world = HandlerResult.okResponse c f rs
      ∧ rs.map (fun r => (r.nodeId, r.signature))
          = issues.map (fun it => (it.nodeId, it.signature))
      ∧ c + f = issues.length := by
  unfold handleSync
  rw [howner, hrepo, hissues]
  simp only [Bool.and_self, if_true]
  rw [processIssues_spec]
  refine ⟨(processedItems pid world 0 issues).countP (fun o => o.1),
          (processedItems pid world 0 issues).countP (fun o => !o.1),
          (processedItems pid world 0 issues).map (fun o => o.2), rfl, ?_, ?_⟩
  · rw [List.map_map]
    exact processedItems_pairs pid world issues 0
  · rw [countP_bool_split, processedItems_length]

theorem serviceResultsCorrelateW :
    ∃ c f rs,
      handleSync ⟨some "me", some "repo", some [⟨some "t", some "b", some "0:1", some "aa"⟩]⟩
          none (fun _ => (TrackerOutcome.response 201 "Created" ⟨none, some "u", none⟩,
                          AttachOutcome.thrown none))
        = HandlerResult.okResponse c f rs
      ∧ rs.map (fun r => (r.nodeId, r.signature))
          = [(some "0:1", some "aa")]
      ∧ c + f = 1 :=
  serviceResultsCorrelate _ none _ [⟨some "t", some "b", some "0:1", some "aa"⟩] rfl rfl rfl

/-! ## C3 — bulkhead: every item processed, failures isolated -/

def exampleItem (n : Nat) : ReqItem :=
  ⟨some ("Fix " ++ toString n), some ("body " ++ toString n),
   some ("0:" ++ toString n), some ("sig" ++ toString n)⟩

def exampleWorld3 : Nat → TrackerOutcome × AttachOutcome := fun i =>
  (if i = 1 then TrackerOutcome.thrown (some "ECONNRESET")
   else TrackerOutcome.response 201 "Created" ⟨none, some "https://tracker/issues/1", some "NID"⟩,
   AttachOutcome.response 200 "OK" none none)

/-- C3: the service loop processes every item independently of prior
failures: the result list is exactly the per-item outcomes in input order
(each computed from that item and its own remote-call outcomes alone), the
failure counter counts exactly the failing items, and in particular a batch
of 3 whose middle item's remote call throws still yields success results for
items 1 and 3. -/
theorem serviceBulkheadIsolation :
    (∀ (pid : Option String) (world : Nat → TrackerOutcome × AttachOutcome)
        (items : List ReqItem),
      processIssues pid world items
        = ((processedItems pid world 0 items).countP (fun o => o.1),
           (processedItems pid world 0 items).countP (fun o => !o.1),
           (processedItems pid world 0 items).map (fun o => o.2)))
    ∧ (processIssues none exampleWorld3 [exampleItem 0, exampleItem 1, exampleItem 2]).1 = 2
    ∧ (processIssues none exampleWorld3 [exampleItem 0, exampleItem 1, exampleItem 2]).2.1 = 1
    ∧ (processIssues none exampleWorld3
          [exampleItem 0, exampleItem 1, exampleItem 2]).2.2.map (fun r => (r.status, r.error))
        = [(201, none), (500, some "ECONNRESET"), (201, none)] :=
  ⟨processIssues_spec, by decide, by decide, by decide⟩

/-! ## C6 — attachment failure never downgrades creation success -/

/-- The attach call fails: the fetch threw, or the response is non-2xx, or it
carries a nonempty GraphQL `errors` array. -/
def attachFailed : AttachOutcome → Prop
  | .thrown _ => True
  | .response st _ errs _ => ¬(200 ≤ st ∧ st ≤ 299) ∨ ∃ l, errs = some l ∧ l ≠ []

/-- For truthy project and content ids, a failed attach call reports
`{status, error}` (or `{status: 0, error}` on a throw) — always `some` with
`error` set, never an exception. -/
theorem addIssueToProject_failed (pid cid : Option String) (aw : AttachOutcome)
    (hpid : (truthyStr pid).isSome = true) (hcid : (truthyStr cid).isSome = true)
    (hfail : attachFailed aw) :
    ∃ ps : ProjStatus, addIssueToProject pid cid aw = some ps ∧ ps.error.isSome = true := by
  rcases hpo : truthyStr pid with _ | pv
  · rw [hpo] at hpid; cases hpid
  rcases hco : truthyStr cid with _ | cv
  · rw [hco] at hcid; cases hcid
  cases aw with
  | thrown m =>
    refine ⟨⟨0, some (truthyD m "Unknown error")⟩, ?_, rfl⟩
    unfold addIssueToProject
    rw [hpo, hco]
  | response ast astext errs msg =>
    rcases hfail with hn | ⟨l, hl, hlne⟩
    · refine ⟨⟨ast, some (match errs with
        | some l => joinMessages l
        | none => truthyD msg astext)⟩, ?_, rfl⟩
      simp [addIssueToProject, hpo, hco, hn]
    · subst hl
      refine ⟨⟨ast, some (joinMessages l)⟩, ?_, rfl⟩
      have hl0 : l.isEmpty = false := by
        cases l with
        | nil => exact absurd rfl hlne
        | cons x xs => rfl
      simp [addIssueToProject, hpo, hco, hl0]

/-- C6: when the tracker issue creation succeeds (2xx) and the subsequent
project-attachment call fails, the item still counts as created and its
result keeps the creation status, its top-level `error` stays absent, and
the failure is reported only inside `projectStatus` (with `error` set). -/
theorem attachFailureKeepsSuccess (pid : Option String) (item : ReqItem) (st : Nat)
    (stext : String) (body : TrackerBody) (aw : AttachOutcome)
    (htitle : (truthyStr item.title).isSome = true)
    (hbody : (truthyStr item.body).isSome = true)
    (hst : 200 ≤ st ∧ st ≤ 299)
    (hpid : (truthyStr pid).isSome = true)
    (hcid : (truthyStr body.node_id).isSome = true)
    (hfail : attachFailed aw) :
    ∃ ps : ProjStatus,
      processItem pid item (TrackerOutcome.response st stext body) aw
        = (true, ⟨item.nodeId, item.signature, st, body.html_url, none, some ps⟩)
      ∧ ps.error.isSome = true := by
  rcases hto : truthyStr item.title with _ | tv
  · rw [hto] at htitle; cases htitle
  rcases hbo : truthyStr item.body with _ | bv
  · rw [hbo] at hbody; cases hbody
  obtain ⟨ps, hps, he⟩ := addIssueToProject_failed pid body.node_id aw hpid hcid hfail
  refine ⟨ps, ?_, he⟩
  unfold processItem
  rw [hto, hbo]
  simp only [Option.isNone_some, Bool.or_self, Bool.false_eq_true, if_false, if_pos hst]
  rw [hps]

theorem attachFailureKeepsSuccessW :
    ∃ ps : ProjStatus,
      processItem (some "PID") ⟨some "t", some "b", some "0:1", some "aa"⟩
          (TrackerOutcome.response 201 "Created" ⟨none, some "u", some "CID"⟩)
          (AttachOutcome.thrown (some "boom"))
        = (true, ⟨some "0:1", some "aa", 201, some "u", none, some ps⟩)
      ∧ ps.error.isSome = true :=
  attachFailureKeepsSuccess (some "PID") ⟨some "t", some "b", some "0:1", some "aa"⟩ 201
    "Created" ⟨none, some "u", some "CID"⟩ (AttachOutcome.thrown (some "boom"))
    rfl rfl (by decide) rfl rfl trivial

/-! ## C8 — project board resolution order and null degradation -/

/-- The by-number source translation, with the caller's catch, equals the
spec-side cascade. -/
theorem byNumber_refines_spec (w : OwnerType → NumOutcome) :
    catchToNull (fetchProjectIdByNumber w) = specResolveByNumber w := by
  unfold fetchProjectIdByNumber specResolveByNumber fetchProjectByNumber catchToNull
  rcases h1 : w OwnerType.org with _ | _ | p <;>
    simp only [h1, numOutcomeId] <;>
    try rcases h3 : projTruthyId p with _ | i <;> simp only [h3]
  all_goals try rfl
  all_goals
    rcases h2 : w OwnerType.user with _ | _ | q <;>
      simp only [h2, numOutcomeId] <;>
      try rcases h4 : projTruthyId q with _ | j <;> simp only [h4]
  all_goals simp [projTruthyId]

/-- The by-name source translation, with the caller's catch, equals the
spec-side cascade. -/
theorem byName_refines_spec (w : OwnerType → Nat → ListOutcome) (name : String) :
    catchToNull (fetchProjectId w name) = specResolveByName w name := by
  unfold fetchProjectId specResolveByName fetchProjectList catchToNull
  rcases h1 : w OwnerType.org 50 with _ | _ | nodes <;>
    simp only [h1, listOutcomeId] <;>
    try rcases h3 : projTruthyId (findProjByTitle nodes name) with _ | i <;> simp only [h3]
  all_goals try rfl
  all_goals
    rcases h2 : w OwnerType.user 50 with _ | _ | nodes2 <;>
      simp only [h2, listOutcomeId] <;>
      try rcases h4 : projTruthyId (findProjByTitle nodes2 name) with _ | j <;> simp only [h4]
  all_goals simp [projTruthyId, findProjByTitle]

/-- C8: the resolver follows the specified resolution order and degrades to
`null` rather than erroring: a truthy numeric reference resolves through the
by-number lookup (organization scope first, then user, first truthy id
wins); otherwise a truthy name resolves through the by-name listing with the
fixed page size 50 and exact case-sensitive title match; both paths equal
the spec's cascade (which returns `null` when nothing matches or a lookup
fails); neither configured, the run proceeds with no project; and the
by-name path consults nothing beyond the two page-50 listings. -/
theorem resolverOrderAndDegrade (num : Option Int) (name powner : Option String)
    (wNum : OwnerType → NumOutcome) (wList wList2 : OwnerType → Nat → ListOutcome)
    (nm : String) :
    (numTruthy num = true → (truthyStr powner).isSome = true →
      resolveProjectIdForRequest num name powner wNum wList = specResolveByNumber wNum)
    ∧ (numTruthy num = false → (truthyStr name).isSome = true →
        (truthyStr powner).isSome = true →
        resolveProjectIdForRequest num name powner wNum wList
          = specResolveByName wList (name.getD ""))
    ∧ ((truthyStr powner).isSome = false →
        resolveProjectIdForRequest num name powner wNum wList = none)
    ∧ ((∀ t : OwnerType, wList t 50 = wList2 t 50) →
        fetchProjectId wList nm = fetchProjectId wList2 nm) := by
  refine ⟨?_, ?_, ?_, ?_⟩
  · intro hn hp
    unfold resolveProjectIdForRequest
    rw [hn, hp]
    simp only [Bool.and_self, if_true]
    exact byNumber_refines_spec wNum
  · intro hn hname hp
    unfold resolveProjectIdForRequest
    rw [hn, hname, hp]
    simp only [Bool.false_and, Bool.and_self, Bool.false_eq_true, if_false, if_true]
    exact byName_refines_spec wList (name.getD "")
  · intro hp
    unfold resolveProjectIdForRequest
    rw [hp]
    simp
  · intro hw
    unfold fetchProjectId fetchProjectList
    rw [hw OwnerType.org, hw OwnerType.user]

theorem resolverOrderAndDegradeW :
    resolveProjectIdForRequest (some 7) none (some "me")
        (fun t => match t with
          | OwnerType.org => NumOutcome.okProj none
          | OwnerType.user => NumOutcome.okProj (some ⟨some "PID", "Board"⟩))
        (fun _ _ => ListOutcome.notOk)
      = specResolveByNumber (fun t => match t with
          | OwnerType.org => NumOutcome.okProj none
          | OwnerType.user => NumOutcome.okProj (some ⟨some "PID", "Board"⟩))
    ∧ resolveProjectIdForRequest none (some "Board") (some "me")
        (fun _ => NumOutcome.notOk)
        (fun _ _ => ListOutcome.thrownNet)
      = specResolveByName (fun _ _ => ListOutcome.thrownNet) "Board"
    ∧ resolveProjectIdForRequest (some 7) (some "Board") none
        (fun _ => NumOutcome.notOk) (fun _ _ => ListOutcome.notOk) = none :=
  ⟨(resolverOrderAndDegrade (some 7) none (some "me") _ _ (fun _ _ => ListOutcome.notOk)
      "Board").1 rfl rfl,
   (resolverOrderAndDegrade none (some "Board") (some "me") (fun _ => NumOutcome.notOk) _
      (fun _ _ => ListOutcome.notOk) "Board").2.1 rfl rfl rfl,
   (resolverOrderAndDegrade (some 7) (some "Board") none (fun _ => NumOutcome.notOk)
      (fun _ _ => ListOutcome.notOk) (fun _ _ => ListOutcome.notOk) "Board").2.2.1 rfl⟩

/-! ## JSON codec round trip on the values the sync records store -/

/-- A string with no control characters.  Every blob the system itself
writes consists of such strings: signatures are lowercase hex. -/
def SafeStr (s : String) : Prop := ∀ c ∈ s.data, 32 ≤ c.toNat

theorem escJson_plain (c : Char) (h1 : c ≠ '"') (h2 : c ≠ '\\') (h3 : 32 ≤ c.toNat) :
    escJson c = [c] := by
  have n8 : c ≠ Char.ofNat 8 := by intro h; rw [h] at h3; exact absurd h3 (by decide)
  have n9 : c ≠ '\t' := by intro h; rw [h] at h3; exact absurd h3 (by decide)
  have n10 : c ≠ '\n' := by intro h; rw [h] at h3; exact absurd h3 (by decide)
  have n12 : c ≠ Char.ofNat 12 := by intro h; rw [h] at h3; exact absurd h3 (by decide)
  have n13 : c ≠ Char.ofNat 13 := by intro h; rw [h] at h3; exact absurd h3 (by decide)
  unfold escJson
  rw [if_neg h1, if_neg h2, if_neg n8, if_neg n9, if_neg n10, if_neg n12, if_neg n13,
    if_neg (by omega)]

theorem skipWs_cons_not (c : Char) (t : List Char) (h : isWsChar c = false) :
    skipWs (c :: t) = c :: t := by
  rw [skipWs.eq_def]; simp [h]

theorem parseStringBody_quote (rest : List Char) :
    parseStringBody ('"' :: rest) = some ([], rest) := by
  rw [parseStringBody.eq_def]; simp

theorem parseStringBody_escQuote (rest : List Char) :
    parseStringBody ('\\' :: '"' :: rest) = pushC '"' (parseStringBody rest) := by
  rw [parseStringBody.eq_def]; simp

theorem parseStringBody_escBackslash (rest : List Char) :
    parseStringBody ('\\' :: '\\' :: rest) = pushC '\\' (parseStringBody rest) := by
  rw [parseStringBody.eq_def]; simp

theorem parseStringBody_plain (c : Char) (rest : List Char) (h1 : c ≠ '"') (h2 : c ≠ '\\')
    (h3 : 32 ≤ c.toNat) :
    parseStringBody (c :: rest) = pushC c (parseStringBody rest) := by
  rw [parseStringBody.eq_def]
  simp [h1, h2, Nat.not_lt.mpr h3]

theorem parseStringBody_rt (cs : List Char) (rest : List Char)
    (h : ∀ c ∈ cs, 32 ≤ c.toNat) :
    parseStringBody (cs.flatMap escJson ++ '"' :: rest) = some (cs, rest) := by
  induction cs with
  | nil => simpa using parseStringBody_quote rest
  | cons c cs ih =>
    have hc : 32 ≤ c.toNat := h c (by simp)
    have ih2 := ih (fun x hx => h x (by simp [hx]))
    by_cases h1 : c = '"'
    · subst h1
      have he : escJson '"' = ['\\', '"'] := rfl
      rw [List.flatMap_cons, he]
      simp only [List.cons_append, List.append_assoc, List.nil_append]
      rw [parseStringBody_escQuote, ih2]
      rfl
    · by_cases h2 : c = '\\'
      · subst h2
        have he : escJson '\\' = ['\\', '\\'] := rfl
        rw [List.flatMap_cons, he]
        simp only [List.cons_append, List.append_assoc, List.nil_append]
        rw [parseStringBody_escBackslash, ih2]
        rfl
      · rw [List.flatMap_cons, escJson_plain c h1 h2 hc]
        simp only [List.cons_append, List.append_assoc, List.nil_append]
        rw [parseStringBody_plain c _ h1 h2 hc, ih2]
        rfl

theorem parseValue_quote (fuel : Nat) (rest : List Char) :
    parseValue (fuel + 1) ('"' :: rest)
      = match parseStringBody rest with
        | some (body, rest2) => some (.str (String.mk body), rest2)
        | none => none := by
  rw [parseValue.eq_def]
  dsimp only
  rw [skipWs_cons_not _ _ (by decide)]
  rfl

theorem parseValue_lbrack (fuel : Nat) (rest : List Char) :
    parseValue (fuel + 1) ('[' :: rest)
      = match skipWs rest with
        | ']' :: rest2 => some (.arr [], rest2)
        | cs2 => parseElemsLoop fuel cs2 [] := by
  rw [parseValue.eq_def]
  dsimp only
  rw [skipWs_cons_not _ _ (by decide)]
  rfl

theorem parseElemsLoop_succ (fuel : Nat) (cs : List Char) (acc : List Json) :
    parseElemsLoop (fuel + 1) cs acc
      = match parseValue fuel cs with
        | none => none
        | some (v, rest) =>
          match skipWs rest with
          | ',' :: rest2 => parseElemsLoop fuel rest2 (acc ++ [v])
          | ']' :: rest2 => some (.arr (acc ++ [v]), rest2)
          | _ => none := by
  rw [parseElemsLoop.eq_def]

/-- `stringifyChars` on a string value. -/
theorem stringifyChars_str (s : String) :
    stringifyChars (Json.str s) = quoteChars s.data := by
  rw [stringifyChars.eq_def]

/-- `stringifyChars` on an array value. -/
theorem stringifyChars_arr (l : List Json) :
    stringifyChars (Json.arr l) = '[' :: elemsChars l ++ [']'] := by
  rw [stringifyChars.eq_def]

theorem elemsChars_single (v : Json) : elemsChars [v] = stringifyChars v := by
  rw [elemsChars.eq_def]

theorem elemsChars_cons2 (v w : Json) (rest : List Json) :
    elemsChars (v :: w :: rest) = stringifyChars v ++ ',' :: elemsChars (w :: rest) := by
  rw [elemsChars.eq_def]

theorem parseElemsLoop_rt (ss : List String) : ∀ (rest : List Char) (acc : List Json) (fuel : Nat),
    ss.length + 1 ≤ fuel → ss ≠ [] → (∀ s ∈ ss, SafeStr s) →
    parseElemsLoop fuel (elemsChars (ss.map Json.str) ++ ']' :: rest) acc
      = some (Json.arr (acc ++ ss.map Json.str), rest) := by
  induction ss with
  | nil => intro rest acc fuel hf hne hsafe; exact absurd rfl hne
  | cons s ss ih =>
    intro rest acc fuel hf hne hsafe
    obtain ⟨f, rfl⟩ : ∃ f, fuel = f + 1 := ⟨fuel - 1, by omega⟩
    obtain ⟨g, rfl⟩ : ∃ g, f = g + 1 := ⟨f - 1, by simp at hf; omega⟩
    cases ss with
    | nil =>
      rw [List.map_cons, List.map_nil, elemsChars_single, stringifyChars_str]
      unfold quoteChars
      simp only [List.cons_append, List.append_assoc, List.nil_append]
      rw [parseElemsLoop_succ, parseValue_quote,
        parseStringBody_rt _ _ (hsafe s (by simp))]
      dsimp only
      rw [skipWs_cons_not _ _ (by decide)]
      rfl
    | cons s2 ss2 =>
      rw [List.map_cons, List.map_cons, elemsChars_cons2, stringifyChars_str]
      unfold quoteChars
      simp only [List.cons_append, List.append_assoc, List.nil_append]
      rw [parseElemsLoop_succ, parseValue_quote,
        parseStringBody_rt _ _ (hsafe s (by simp))]
      dsimp only
      rw [skipWs_cons_not _ _ (by decide)]
      have hrec := ih rest (acc ++ [Json.str s]) (g + 1)
        (by simp at hf ⊢; omega) (by simp) (fun x hx => hsafe x (by simp [hx]))
      rw [List.map_cons] at hrec
      show parseElemsLoop (g + 1) (elemsChars (Json.str s2 :: List.map Json.str ss2) ++ ']' :: rest)
          (acc ++ [Json.str s])
        = some (Json.arr (acc ++ Json.str s :: Json.str s2 :: List.map Json.str ss2), rest)
      rw [hrec]
      simp

theorem elemsChars_strs_length (ss : List String) :
    ss.length ≤ (elemsChars (ss.map Json.str)).length := by
  induction ss with
  | nil => simp [elemsChars]
  | cons s rest ih =>
    cases rest with
    | nil =>
      rw [List.map_cons, List.map_nil, elemsChars_single, stringifyChars_str]
      unfold quoteChars
      simp
    | cons s2 ss2 =>
      simp only [List.map_cons, List.length_cons] at ih ⊢
      rw [elemsChars_cons2, stringifyChars_str]
      unfold quoteChars
      simp only [List.length_cons, List.length_append]
      omega

theorem elemsChars_strs_head (s : String) (ss2 : List String) :
    ∃ t, elemsChars ((s :: ss2).map Json.str) = '"' :: t := by
  cases ss2 with
  | nil =>
    rw [List.map_cons, List.map_nil, elemsChars_single, stringifyChars_str]
    exact ⟨_, rfl⟩
  | cons s2 rest =>
    rw [List.map_cons, List.map_cons, elemsChars_cons2, stringifyChars_str]
    exact ⟨_, rfl⟩

/-- Round trip on exactly the values the sync record writes: a JSON array of
control-character-free strings survives `JSON.stringify` then `JSON.parse`. -/
theorem jsonParse_stringify_strArr (ss : List String) (hsafe : ∀ s ∈ ss, SafeStr s) :
    jsonParse (jsonStringify (Json.arr (ss.map Json.str))) = some (Json.arr (ss.map Json.str)) := by
  cases ss with
  | nil => rfl
  | cons s ss2 =>
    obtain ⟨t, ht⟩ := elemsChars_strs_head s ss2
    have hlen : (stringifyChars (Json.arr ((s :: ss2).map Json.str))).length
        = (elemsChars ((s :: ss2).map Json.str)).length + 1 + 1 := by
      rw [stringifyChars_arr]
      simp only [List.length_append, List.length_cons, List.length_nil]
      try omega
    have hloop := parseElemsLoop_rt (s :: ss2) [] []
      ((elemsChars ((s :: ss2).map Json.str)).length + 1 + 1)
      (by have h2 := elemsChars_strs_length (s :: ss2)
          simp only [List.length_cons] at h2 ⊢
          try omega)
      (by simp) hsafe
    unfold jsonParse jsonStringify
    rw [show (String.mk (stringifyChars (Json.arr ((s :: ss2).map Json.str)))).data
        = stringifyChars (Json.arr ((s :: ss2).map Json.str)) from rfl]
    rw [hlen, stringifyChars_arr, List.cons_append, ht, List.cons_append, parseValue_lbrack,
      skipWs_cons_not _ _ (by decide)]
    rw [ht, List.cons_append] at hloop
    show (match parseElemsLoop ((('"' :: t).length + 1 + 1))
        ('"' :: (t ++ ']' :: [])) [] with
      | some (v, rest) => if skipWs rest = [] then some v else none
      | none => none) = some (Json.arr ((s :: ss2).map Json.str))
    rw [hloop]
    rfl

/-! ## Sync-record blob lemmas -/

/-- A blob in one of the states the system can produce: absent, unparseable
(treated as empty), or a JSON array of control-character-free strings. -/
def GoodBlob (b : String) : Prop :=
  b = "" ∨ jsonParse b = none
  ∨ ∃ ss : List String, jsonParse b = some (Json.arr (ss.map Json.str)) ∧ ∀ s ∈ ss, SafeStr s

theorem any_eqStr_iff (ss : List String) (x : String) :
    ((ss.map Json.str).any (fun e => e.eqStr x) = true) ↔ x ∈ ss := by
  simp [List.any_map, Json.eqStr, List.any_eq_true]

theorem jsonStringify_arr_ne_empty (l : List Json) : jsonStringify (Json.arr l) ≠ "" := by
  intro h
  have hd : stringifyChars (Json.arr l) = [] := congrArg String.data h
  rw [stringifyChars_arr] at hd
  exact absurd hd (by simp)

theorem isSignatureSynced_parse_arr (b : String) (l : List Json)
    (hp : jsonParse b = some (Json.arr l)) (sig : String) :
    isSignatureSynced b sig = l.any (fun e => e.eqStr sig) := by
  have hb : b ≠ "" := by
    intro h; subst h; rw [jsonParse_empty] at hp; cases hp
  unfold isSignatureSynced
  rw [if_neg hb, hp]

theorem mark_parse_arr_mem (b : String) (ss : List String) (sig : String)
    (hp : jsonParse b = some (Json.arr (ss.map Json.str))) (hmem : sig ∈ ss) :
    markSignatureSynced b sig = MarkResult.noWrite := by
  have hb : b ≠ "" := by
    intro h; subst h; rw [jsonParse_empty] at hp; cases hp
  unfold markSignatureSynced
  rw [if_neg hb, hp]
  have hany : ((ss.map Json.str).any (fun e => e.eqStr sig)) = true :=
    (any_eqStr_iff ss sig).mpr hmem
  simp only [hany, if_true]

theorem mark_parse_arr_new (b : String) (ss : List String) (sig : String)
    (hp : jsonParse b = some (Json.arr (ss.map Json.str))) (hmem : sig ∉ ss) :
    markSignatureSynced b sig
      = MarkResult.write (jsonStringify (Json.arr ((ss ++ [sig]).map Json.str))) := by
  have hb : b ≠ "" := by
    intro h; subst h; rw [jsonParse_empty] at hp; cases hp
  unfold markSignatureSynced
  rw [if_neg hb, hp]
  have hany : ((ss.map Json.str).any (fun e => e.eqStr sig)) = false := by
    rw [Bool.eq_false_iff]
    intro h
    exact hmem ((any_eqStr_iff ss sig).mp h)
  simp only [hany, Bool.false_eq_true, if_false, List.map_append, List.map_cons, List.map_nil]

theorem mark_absent_or_bad (b : String) (sig : String) (h : b = "" ∨ jsonParse b = none) :
    markSignatureSynced b sig
      = MarkResult.write (jsonStringify (Json.arr (([sig]).map Json.str))) := by
  rcases h with h | h
  · subst h; rfl
  · by_cases h0 : b = ""
    · subst h0; rfl
    · unfold markSignatureSynced
      rw [if_neg h0, h]
      rfl

theorem isSync_absent_or_bad (b : String) (sig : String) (h : b = "" ∨ jsonParse b = none) :
    isSignatureSynced b sig = false := by
  rcases h with h | h
  · subst h; rfl
  · unfold isSignatureSynced
    rw [h]
    split <;> rfl

/-- The master blob lemma: on a good blob, a safe signature marks without
throwing, the blob stays good, the signature is afterwards synced, and every
signature synced before stays synced. -/
theorem mark_good (b sig : String) (hg : GoodBlob b) (hs : SafeStr sig) :
    markSignatureSynced b sig ≠ MarkResult.throwsTypeError
    ∧ GoodBlob (markAfterBlob b sig)
    ∧ isSignatureSynced (markAfterBlob b sig) sig = true
    ∧ ∀ x, isSignatureSynced b x = true → isSignatureSynced (markAfterBlob b sig) x = true := by
  have hfresh : ∀ (h : b = "" ∨ jsonParse b = none),
      markSignatureSynced b sig ≠ MarkResult.throwsTypeError
      ∧ GoodBlob (markAfterBlob b sig)
      ∧ isSignatureSynced (markAfterBlob b sig) sig = true
      ∧ ∀ x, isSignatureSynced b x = true →
          isSignatureSynced (markAfterBlob b sig) x = true := by
    intro h
    have hm := mark_absent_or_bad b sig h
    have hafter : markAfterBlob b sig = jsonStringify (Json.arr ([sig].map Json.str)) := by
      unfold markAfterBlob
      rw [hm]
    have hrt := jsonParse_stringify_strArr [sig] (by intro x hx; simp at hx; subst hx; exact hs)
    have hnt : markSignatureSynced b sig ≠ MarkResult.throwsTypeError := by rw [hm]; simp
    refine ⟨hnt, ?_, ?_, ?_⟩
    · rw [hafter]
      exact Or.inr (Or.inr ⟨[sig], hrt, by intro x hx; simp at hx; subst hx; exact hs⟩)
    · rw [hafter, isSignatureSynced_parse_arr _ _ hrt]
      simp [Json.eqStr]
    · intro x hx
      rw [isSync_absent_or_bad b x h] at hx
      cases hx
  rcases hg with h | h | ⟨ss, hp, hss⟩
  · exact hfresh (Or.inl h)
  · exact hfresh (Or.inr h)
  · by_cases hmem : sig ∈ ss
    · have hm := mark_parse_arr_mem b ss sig hp hmem
      have hafter : markAfterBlob b sig = b := by
        unfold markAfterBlob
        rw [hm]
      have hnt : markSignatureSynced b sig ≠ MarkResult.throwsTypeError := by rw [hm]; simp
      refine ⟨hnt, ?_, ?_, ?_⟩
      · rw [hafter]; exact Or.inr (Or.inr ⟨ss, hp, hss⟩)
      · rw [hafter, isSignatureSynced_parse_arr _ _ hp]
        exact (any_eqStr_iff ss sig).mpr hmem
      · intro x hx; rw [hafter]; exact hx
    · have hm := mark_parse_arr_new b ss sig hp hmem
      have hafter : markAfterBlob b sig
          = jsonStringify (Json.arr ((ss ++ [sig]).map Json.str)) := by
        unfold markAfterBlob
        rw [hm]
      have hsafe2 : ∀ s ∈ ss ++ [sig], SafeStr s := by
        intro x hx
        rcases List.mem_append.mp hx with hx | hx
        · exact hss x hx
        · simp at hx; subst hx; exact hs
      have hrt := jsonParse_stringify_strArr (ss ++ [sig]) hsafe2
      have hnt : markSignatureSynced b sig ≠ MarkResult.throwsTypeError := by rw [hm]; simp
      refine ⟨hnt, ?_, ?_, ?_⟩
      · rw [hafter]
        exact Or.inr (Or.inr ⟨ss ++ [sig], hrt, hsafe2⟩)
      · rw [hafter, isSignatureSynced_parse_arr _ _ hrt]
        exact (any_eqStr_iff _ sig).mpr (by simp)
      · intro x hx
        rw [isSignatureSynced_parse_arr _ _ hp] at hx
        rw [hafter, isSignatureSynced_parse_arr _ _ hrt]
        exact (any_eqStr_iff _ x).mpr (List.mem_append.mpr
          (Or.inl ((any_eqStr_iff ss x).mp hx)))

/-! ## Document-level reconciliation lemmas -/

/-- How one node may change across reconciliation: identity and annotations
untouched, blob still good, synced signatures only ever added. -/
def NodeEvolved (a b : NodeState) : Prop :=
  b.nodeId = a.nodeId ∧ b.annotations = a.annotations ∧ GoodBlob b.pluginData ∧
  ∀ sig, isSignatureSynced a.pluginData sig = true → isSignatureSynced b.pluginData sig = true

theorem nodeEvolved_refl (n : NodeState) (h : GoodBlob n.pluginData) : NodeEvolved n n :=
  ⟨rfl, rfl, h, fun _ hx => hx⟩

theorem nodeEvolved_trans {a b c : NodeState} (h1 : NodeEvolved a b) (h2 : NodeEvolved b c) :
    NodeEvolved a c :=
  ⟨h2.1.trans h1.1, h2.2.1.trans h1.2.1, h2.2.2.1, fun s hs => h2.2.2.2 s (h1.2.2.2 s hs)⟩

theorem forall2_nodeEvolved_trans : ∀ {l1 l2 l3 : List NodeState},
    List.Forall₂ NodeEvolved l1 l2 → List.Forall₂ NodeEvolved l2 l3 →
    List.Forall₂ NodeEvolved l1 l3 := by
  intro l1 l2 l3 h12
  induction h12 generalizing l3 with
  | nil => intro h23; cases h23; exact List.Forall₂.nil
  | cons ha hl ih =>
    intro h23
    cases h23 with
    | cons hb hlb => exact List.Forall₂.cons (nodeEvolved_trans ha hb) (ih hlb)

theorem forall2_mem_right {l1 l2 : List NodeState} (h : List.Forall₂ NodeEvolved l1 l2) :
    ∀ b ∈ l2, ∃ a ∈ l1, NodeEvolved a b := by
  induction h with
  | nil => simp
  | cons ha hl ih =>
    intro b hb
    rcases List.mem_cons.mp hb with rfl | hb
    · exact ⟨_, by simp, ha⟩
    · obtain ⟨a, ha2, hev⟩ := ih b hb
      exact ⟨a, by simp [ha2], hev⟩

/-- On a document of good blobs, one mark call succeeds, evolves the
document, and leaves the signature synced on every node with the marked id. -/
theorem applyMark_good (nid sig : String) (doc : List NodeState)
    (hg : ∀ n ∈ doc, GoodBlob n.pluginData) (hs : SafeStr sig) :
    ∃ doc2, applyMark nid sig doc = some doc2
      ∧ List.Forall₂ NodeEvolved doc doc2
      ∧ ∀ b ∈ doc2, b.nodeId = nid → isSignatureSynced b.pluginData sig = true := by
  induction doc with
  | nil => exact ⟨[], rfl, List.Forall₂.nil, by simp⟩
  | cons n rest ih =>
    obtain ⟨d2, hd2, hf2, hsync⟩ := ih (fun x hx => hg x (by simp [hx]))
    have hgn := hg n (by simp)
    by_cases hid : n.nodeId = nid
    · obtain ⟨hnt, hgood2, hsynced, hmono⟩ := mark_good n.pluginData sig hgn hs
      rcases hm : markSignatureSynced n.pluginData sig with _ | bl | _
      · have hab : markAfterBlob n.pluginData sig = n.pluginData := by
          unfold markAfterBlob
          rw [hm]
        rw [hab] at hgood2 hsynced hmono
        refine ⟨n :: d2, ?_, List.Forall₂.cons (nodeEvolved_refl n hgn) hf2, ?_⟩
        · simp only [applyMark, if_pos hid, hm, hd2, Option.map_some']
        · intro b hb hbid
          rcases List.mem_cons.mp hb with rfl | hb
          · exact hsynced
          · exact hsync b hb hbid
      · have hab : markAfterBlob n.pluginData sig = bl := by
          unfold markAfterBlob
          rw [hm]
        rw [hab] at hgood2 hsynced hmono
        refine ⟨{ n with pluginData := bl } :: d2, ?_, ?_, ?_⟩
        · simp only [applyMark, if_pos hid, hm, hd2, Option.map_some']
        · exact List.Forall₂.cons ⟨rfl, rfl, hgood2, hmono⟩ hf2
        · intro b hb hbid
          rcases List.mem_cons.mp hb with rfl | hb
          · exact hsynced
          · exact hsync b hb hbid
      · exact absurd hm hnt
    · refine ⟨n :: d2, ?_, List.Forall₂.cons (nodeEvolved_refl n hgn) hf2, ?_⟩
      · simp only [applyMark, if_neg hid, hd2, Option.map_some']
      · intro b hb hbid
        rcases List.mem_cons.mp hb with rfl | hb
        · exact absurd hbid hid
        · exact hsync b hb hbid

/-- The reconciliation loop on a document of good blobs with safe qualifying
signatures: no mark throws, the recorded mark calls are exactly the
qualifying results, the document evolves, and after the loop every
qualifying `(nodeId, signature)` is synced on every node bearing that id. -/
theorem reconcile_good (ids : List String) (results : List ResItemC)
    (hsafe : ∀ r ∈ results, ∀ p : String × String, qualifies ids r = some p → SafeStr p.2) :
    ∀ doc marks cnt, (∀ n ∈ doc, GoodBlob n.pluginData) →
    ∃ doc2, reconcileResults ids doc marks cnt results
        = (doc2, marks ++ results.filterMap (qualifies ids),
           cnt + (results.filterMap (qualifies ids)).length, false)
      ∧ List.Forall₂ NodeEvolved doc doc2
      ∧ ∀ r ∈ results, ∀ nid sig, qualifies ids r = some (nid, sig) →
          ∀ b ∈ doc2, b.nodeId = nid → isSignatureSynced b.pluginData sig = true := by
  induction results with
  | nil =>
    intro doc marks cnt hg
    refine ⟨doc, by simp [reconcileResults], ?_, by simp⟩
    exact List.forall₂_same.mpr fun n hn => nodeEvolved_refl n (hg n hn)
  | cons r rest ih =>
    intro doc marks cnt hg
    rcases hq : qualifies ids r with _ | ⟨nid, sig⟩
    · obtain ⟨doc2, heq, hf2, hsync⟩ :=
        ih (fun x hx p hp => hsafe x (by simp [hx]) p hp) doc marks cnt hg
      refine ⟨doc2, ?_, hf2, ?_⟩
      · simp only [reconcileResults, hq, heq, List.filterMap_cons]
      · intro r2 hr2 nid2 sig2 hq2 b hb hbid
        rcases List.mem_cons.mp hr2 with rfl | hr2
        · rw [hq] at hq2
          cases hq2
        · exact hsync r2 hr2 nid2 sig2 hq2 b hb hbid
    · have hssafe : SafeStr sig := hsafe r (by simp) (nid, sig) hq
      obtain ⟨docm, hdm, hfm, hsm⟩ := applyMark_good nid sig doc hg hssafe
      have hgm : ∀ n ∈ docm, GoodBlob n.pluginData := by
        intro n hn
        obtain ⟨a, _, hev⟩ := forall2_mem_right hfm n hn
        exact hev.2.2.1
      obtain ⟨doc2, heq, hf2, hsync⟩ :=
        ih (fun x hx p hp => hsafe x (by simp [hx]) p hp) docm
          (marks ++ [(nid, sig)]) (cnt + 1) hgm
      refine ⟨doc2, ?_, forall2_nodeEvolved_trans hfm hf2, ?_⟩
      · simp only [reconcileResults, hq, hdm, heq, List.filterMap_cons, List.length_cons,
          Prod.mk.injEq, List.append_assoc, List.singleton_append]
        refine ⟨?_, ?_, ?_, ?_⟩ <;> first | trivial | omega
      · intro r2 hr2 nid2 sig2 hq2 b hb hbid
        rcases List.mem_cons.mp hr2 with rfl | hr2
        · rw [hq] at hq2
          injection hq2 with hp
          injection hp with h1 h2
          subst h1
          subst h2
          obtain ⟨a, ha, hev⟩ := forall2_mem_right hf2 b hb
          have hai : a.nodeId = nid := hev.1 ▸ hbid
          exact hev.2.2.2 sig (hsm a ha hai)
        · exact hsync r2 hr2 nid2 sig2 hq2 b hb hbid

instance decSafeStr (s : String) : Decidable (SafeStr s) :=
  inferInstanceAs (Decidable (∀ c ∈ s.data, 32 ≤ c.toNat))

/-! ## C1 — reconciliation updates records exactly from confirmed successes -/

/-- C1: during reconciliation, `markSignatureSynced` is invoked exactly for
the result items whose truthy `(nodeId, signature)` matches a collected node
and whose per-item status lies in `[200, 300)` (the `qualifies` filter), in
response order and with nothing thrown; and on a thrown transport call
(timeout included) or a non-2xx whole response the run reports an error and
no node's record is touched. -/
theorem reconcileMarksExactlyConfirmed
    (ids : List String) (doc : List NodeState) (results : List ResItemC)
    (m : String) (st : Nat) (stext btext : String) (data : RespData)
    (hgood : ∀ n ∈ doc, GoodBlob n.pluginData)
    (hsafe : ∀ r ∈ results, ∀ p : String × String, qualifies ids r = some p → SafeStr p.2)
    (hnotOk : ¬(200 ≤ st ∧ st ≤ 299)) :
    ((reconcileResults ids doc [] 0 results).2.1 = results.filterMap (qualifies ids)
      ∧ (reconcileResults ids doc [] 0 results).2.2.2 = false)
    ∧ syncQaAfterSend ids doc (SendOutcome.failure m)
        = (doc, SyncMsg.error (requestFailedMessage m))
    ∧ syncQaAfterSend ids doc (SendOutcome.response st stext btext data)
        = (doc, SyncMsg.error (serverErrorMessage st stext btext)) := by
  obtain ⟨doc2, heq, _, _⟩ := reconcile_good ids results hsafe doc [] 0 hgood
  refine ⟨⟨?_, ?_⟩, rfl, ?_⟩
  · rw [heq]
    simp
  · rw [heq]
  · unfold syncQaAfterSend
    dsimp only
    rw [if_neg hnotOk]

theorem reconcileMarksExactlyConfirmedW :
    ((reconcileResults ["1:2"] [⟨"1:2", [], ""⟩] [] 0
        [⟨some "1:2", some "aa", some 201⟩, ⟨some "1:2", some "bb", some 500⟩]).2.1
      = [⟨some "1:2", some "aa", some 201⟩,
         (⟨some "1:2", some "bb", some 500⟩ : ResItemC)].filterMap (qualifies ["1:2"])
      ∧ (reconcileResults ["1:2"] [⟨"1:2", [], ""⟩] [] 0
          [⟨some "1:2", some "aa", some 201⟩, ⟨some "1:2", some "bb", some 500⟩]).2.2.2 = false)
    ∧ syncQaAfterSend ["1:2"] [⟨"1:2", [], ""⟩] (SendOutcome.failure "Timeout")
        = ([⟨"1:2", [], ""⟩], SyncMsg.error (requestFailedMessage "Timeout"))
    ∧ syncQaAfterSend ["1:2"] [⟨"1:2", [], ""⟩]
          (SendOutcome.response 503 "Service Unavailable" "" ⟨none, none, none⟩)
        = ([⟨"1:2", [], ""⟩],
           SyncMsg.error (serverErrorMessage 503 "Service Unavailable" "")) :=
  reconcileMarksExactlyConfirmed ["1:2"] [⟨"1:2", [], ""⟩]
    [⟨some "1:2", some "aa", some 201⟩, ⟨some "1:2", some "bb", some 500⟩]
    "Timeout" 503 "Service Unavailable" "" ⟨none, none, none⟩
    (by intro n hn
        rcases List.mem_singleton.mp hn with rfl
        exact Or.inl rfl)
    (by intro r hr p hp
        rcases List.mem_cons.mp hr with rfl | hr
        · rw [show qualifies ["1:2"] (⟨some "1:2", some "aa", some 201⟩ : ResItemC)
              = some ("1:2", "aa") from rfl] at hp
          injection hp with hp2
          subst hp2
          exact (by decide : SafeStr "aa")
        · rcases List.mem_singleton.mp hr with rfl
          rw [show qualifies ["1:2"] (⟨some "1:2", some "bb", some 500⟩ : ResItemC)
              = none from rfl] at hp
          cases hp)
    (by decide)

/-! ## C9 — the record holds each signature at most once and is append-only -/

/-- C9: marking an already-present signature performs no write; marking a new
one writes the old record with the signature appended (every previous entry
preserved, and — on the strings the system stores — the new record's
membership is exactly the old entries plus the new signature, so a
duplicate-free record stays duplicate-free); and the only removing
operation, reset, clears the whole record of every node so that nothing is
synced afterwards. -/
theorem syncRecordAppendOnly :
    (∀ (b : String) (ss : List String) (sig : String),
        jsonParse b = some (Json.arr (ss.map Json.str)) → sig ∈ ss →
        markSignatureSynced b sig = MarkResult.noWrite)
    ∧ (∀ (b : String) (ss : List String) (sig : String),
        jsonParse b = some (Json.arr (ss.map Json.str)) → sig ∉ ss →
        markSignatureSynced b sig
          = MarkResult.write (jsonStringify (Json.arr ((ss ++ [sig]).map Json.str))))
    ∧ (∀ (b : String) (ss : List String) (sig x : String),
        jsonParse b = some (Json.arr (ss.map Json.str)) →
        (∀ s ∈ ss, SafeStr s) → SafeStr sig → sig ∉ ss →
        (isSignatureSynced (markAfterBlob b sig) x = true ↔ x ∈ ss ++ [sig]))
    ∧ (∀ ss : List String, ∀ sig, sig ∉ ss → ss.Nodup → (ss ++ [sig]).Nodup)
    ∧ (∀ doc : List NodeState, ∀ n ∈ (resetSyncedNodes doc).1,
        n.pluginData = "" ∧ ∀ sig, isSignatureSynced n.pluginData sig = false) := by
  refine ⟨mark_parse_arr_mem, mark_parse_arr_new, ?_, ?_, ?_⟩
  · intro b ss sig x hp hss hsig hmem
    have hafter : markAfterBlob b sig
        = jsonStringify (Json.arr ((ss ++ [sig]).map Json.str)) := by
      unfold markAfterBlob
      rw [mark_parse_arr_new b ss sig hp hmem]
    have hsafe2 : ∀ s ∈ ss ++ [sig], SafeStr s := by
      intro y hy
      rcases List.mem_append.mp hy with hy | hy
      · exact hss y hy
      · rcases List.mem_singleton.mp hy with rfl
        exact hsig
    rw [hafter, isSignatureSynced_parse_arr _ _ (jsonParse_stringify_strArr _ hsafe2)]
    exact any_eqStr_iff _ x
  · intro ss sig hmem hnd
    simp [List.nodup_append, hnd, hmem]
  · intro doc n hn
    unfold resetSyncedNodes at hn
    simp only [List.mem_map] at hn
    obtain ⟨n0, _, rfl⟩ := hn
    by_cases h0 : n0.pluginData = ""
    · rw [if_pos h0]
      exact ⟨h0, fun sig => by rw [h0]; rfl⟩
    · rw [if_neg h0]
      exact ⟨rfl, fun sig => rfl⟩

theorem syncRecordAppendOnlyW :
    markSignatureSynced "[\"aa\"]" "aa" = MarkResult.noWrite
    ∧ markSignatureSynced "[\"aa\"]" "bb"
        = MarkResult.write (jsonStringify (Json.arr ((["aa", "bb"]).map Json.str)))
    ∧ (isSignatureSynced (markAfterBlob "[\"aa\"]" "bb") "aa" = true ↔ "aa" ∈ ["aa", "bb"])
    ∧ (["aa", "bb"] : List String).Nodup
    ∧ ∀ n ∈ (resetSyncedNodes [⟨"1:2", [], "[\"aa\"]"⟩]).1,
        n.pluginData = "" ∧ ∀ sig, isSignatureSynced n.pluginData sig = false :=
  ⟨syncRecordAppendOnly.1 "[\"aa\"]" ["aa"] "aa" rfl (by decide),
   syncRecordAppendOnly.2.1 "[\"aa\"]" ["aa"] "bb" rfl (by decide),
   syncRecordAppendOnly.2.2.1 "[\"aa\"]" ["aa"] "bb" "aa" rfl (by decide) (by decide) (by decide),
   syncRecordAppendOnly.2.2.2.1 ["aa"] "bb" (by decide) (by decide),
   syncRecordAppendOnly.2.2.2.2 [⟨"1:2", [], "[\"aa\"]"⟩]⟩

/-! ## C4 — idempotence of collect → send → reconcile -/

theorem hexDigitChar_ge32 (n : Nat) : 32 ≤ (hexDigitChar n).toNat := by
  unfold hexDigitChar
  split <;> decide

theorem natToHexAux_safe (fuel : Nat) : ∀ (n : Nat) (acc : List Char),
    (∀ c ∈ acc, 32 ≤ c.toNat) → ∀ c ∈ natToHexAux fuel n acc, 32 ≤ c.toNat := by
  induction fuel with
  | zero => intro n acc h; exact h
  | succ f ih =>
    intro n acc h
    unfold natToHexAux
    split
    · intro c hc
      rcases List.mem_cons.mp hc with rfl | hc
      · exact hexDigitChar_ge32 _
      · exact h c hc
    · refine ih _ _ ?_
      intro c hc
      rcases List.mem_cons.mp hc with rfl | hc
      · exact hexDigitChar_ge32 _
      · exact h c hc

/-- Signatures are lowercase hex, hence control-character-free. -/
theorem hashString_safe (v : String) : SafeStr (hashString v) := by
  intro c hc
  exact natToHexAux_safe _ _ _ (by simp) c hc

/-- A document on which every QA annotation's signature is already recorded
collects an empty batch under `skipSynced`. -/
theorem collect_empty_of_synced (titleOf bodyOf : NodeState → Annot → String)
    (labelSetting qaId : String) (doc : List NodeState)
    (h : ∀ n ∈ doc, ∀ a ∈ n.annotations, a.categoryId = some qaId →
        isSignatureSynced n.pluginData
          (signatureOf n.nodeId (a.categoryId.getD "") (annotText a)) = true) :
    collectIssues titleOf bodyOf labelSetting qaId true doc = [] := by
  unfold collectIssues
  rw [List.flatMap_eq_nil_iff]
  intro n hn
  rw [List.filterMap_eq_nil_iff]
  intro a ha
  by_cases hc : a.categoryId = some qaId
  · have h2 := h n hn a ha hc
    rw [hc] at h2
    simp only [Option.getD_some] at h2
    simp [hc, h2]
  · simp [hc]

/-- A QA annotation whose signature is not yet recorded is collected. -/
theorem collect_mem (titleOf bodyOf : NodeState → Annot → String)
    (labelSetting qaId : String) (doc : List NodeState) (n : NodeState) (hn : n ∈ doc)
    (a : Annot) (ha : a ∈ n.annotations) (hc : a.categoryId = some qaId)
    (hns : isSignatureSynced n.pluginData
        (signatureOf n.nodeId (a.categoryId.getD "") (annotText a)) = false) :
    (⟨titleOf n a, bodyOf n a, [if labelSetting = "" then "QA" else labelSetting], n.nodeId,
        signatureOf n.nodeId (a.categoryId.getD "") (annotText a)⟩ : IssueRequestItem)
      ∈ collectIssues titleOf bodyOf labelSetting qaId true doc := by
  unfold collectIssues
  rw [List.mem_flatMap]
  refine ⟨n, hn, ?_⟩
  rw [List.mem_filterMap]
  refine ⟨a, ha, ?_⟩
  have hns2 := hns
  rw [hc] at hns2
  simp only [Option.getD_some] at hns2
  simp [hc, hns2]

/-- C4: after a run whose whole response is 2xx and in which every collected
item was reconciled as a confirmed per-item success, a second run over the
unchanged source (with `skipSynced` on) finds every recomputed signature in
its node's record, collects an empty batch, and reports "nothing to send"
without touching the document. -/
theorem syncIdempotentSecondRunEmpty
    (titleOf bodyOf : NodeState → Annot → String) (labelSetting qaId : String)
    (doc : List NodeState) (st : Nat) (stext btext : String) (data : RespData)
    (o2 : SendOutcome)
    (hids : ∀ n ∈ doc, n.nodeId ≠ "")
    (hgood : ∀ n ∈ doc, GoodBlob n.pluginData)
    (hok : 200 ≤ st ∧ st ≤ 299)
    (hsafe : ∀ r ∈ data.results.getD [], ∀ p : String × String,
        qualifies ((collectIssues titleOf bodyOf labelSetting qaId true doc).map
          IssueRequestItem.nodeId) r = some p → SafeStr p.2)
    (hall : ∀ it ∈ collectIssues titleOf bodyOf labelSetting qaId true doc,
        ∃ r ∈ data.results.getD [], r.nodeId = some it.nodeId
          ∧ r.signature = some it.signature ∧ statusOkC r.status = true) :
    collectIssues titleOf bodyOf labelSetting qaId true
        (syncQaRun titleOf bodyOf labelSetting qaId true doc
          (SendOutcome.response st stext btext data)).1 = []
    ∧ syncQaRun titleOf bodyOf labelSetting qaId true
        (syncQaRun titleOf bodyOf labelSetting qaId true doc
          (SendOutcome.response st stext btext data)).1 o2
      = ((syncQaRun titleOf bodyOf labelSetting qaId true doc
          (SendOutcome.response st stext btext data)).1, SyncMsg.empty) := by
  by_cases hempty : collectIssues titleOf bodyOf labelSetting qaId true doc = []
  · have hrun : syncQaRun titleOf bodyOf labelSetting qaId true doc
        (SendOutcome.response st stext btext data) = (doc, SyncMsg.empty) := by
      unfold syncQaRun
      rw [hempty]
      rfl
    rw [hrun]
    refine ⟨hempty, ?_⟩
    unfold syncQaRun
    rw [hempty]
    rfl
  · obtain ⟨doc2, heq, hf2, hsync⟩ := reconcile_good
      ((collectIssues titleOf bodyOf labelSetting qaId true doc).map IssueRequestItem.nodeId)
      (data.results.getD []) hsafe doc [] 0 hgood
    have hrun1 : (syncQaRun titleOf bodyOf labelSetting qaId true doc
        (SendOutcome.response st stext btext data)).1 = doc2 := by
      unfold syncQaRun
      rw [if_neg hempty]
      unfold syncQaAfterSend
      dsimp only
      rw [if_pos hok, heq]
      rfl
    have hsynced2 : ∀ n2 ∈ doc2, ∀ a ∈ n2.annotations, a.categoryId = some qaId →
        isSignatureSynced n2.pluginData
          (signatureOf n2.nodeId (a.categoryId.getD "") (annotText a)) = true := by
      intro n2 hn2 a ha hc
      obtain ⟨n0, hn0, hev⟩ := forall2_mem_right hf2 n2 hn2
      have ha0 : a ∈ n0.annotations := hev.2.1 ▸ ha
      rw [hev.1]
      by_cases hs0 : isSignatureSynced n0.pluginData
          (signatureOf n0.nodeId (a.categoryId.getD "") (annotText a)) = true
      · exact hev.2.2.2 _ hs0
      · have hns : isSignatureSynced n0.pluginData
            (signatureOf n0.nodeId (a.categoryId.getD "") (annotText a)) = false :=
          Bool.eq_false_iff.mpr hs0
        have hmem := collect_mem titleOf bodyOf labelSetting qaId doc n0 hn0 a ha0 hc hns
        obtain ⟨r, hr, hrn, hrs, hrst⟩ := hall _ hmem
        have hmemid : n0.nodeId ∈ (collectIssues titleOf bodyOf labelSetting qaId true
            doc).map IssueRequestItem.nodeId :=
          List.mem_map.mpr ⟨_, hmem, rfl⟩
        have hq : qualifies ((collectIssues titleOf bodyOf labelSetting qaId true doc).map
            IssueRequestItem.nodeId) r
            = some (n0.nodeId, signatureOf n0.nodeId (a.categoryId.getD "") (annotText a)) := by
          unfold qualifies
          rw [hrn, hrs]
          have hne : n0.nodeId ≠ "" := hids n0 hn0
          have hsne : signatureOf n0.nodeId (a.categoryId.getD "") (annotText a) ≠ "" :=
            hashString_ne_empty _
          simp [truthyStr, hne, hsne, hmemid, hrst]
        exact hsync r hr _ _ hq n2 hn2 hev.1
    have hempty2 : collectIssues titleOf bodyOf labelSetting qaId true doc2 = [] :=
      collect_empty_of_synced titleOf bodyOf labelSetting qaId doc2 hsynced2
    rw [hrun1]
    refine ⟨hempty2, ?_⟩
    unfold syncQaRun
    rw [hempty2]
    rfl

def exampleTitle4 : NodeState → Annot → String := fun _ _ => "T"

def exampleBody4 : NodeState → Annot → String := fun _ _ => "B"

def exampleDoc4 : List NodeState := [⟨"1:2", [⟨some "qa", some "Broken button", none⟩], ""⟩]

def exampleData4 : RespData :=
  ⟨some 1, some 0, some [⟨some "1:2", some (signatureOf "1:2" "qa" "Broken button"), some 201⟩]⟩

theorem syncIdempotentSecondRunEmptyW :
    collectIssues exampleTitle4 exampleBody4 "QA" "qa" true
        (syncQaRun exampleTitle4 exampleBody4 "QA" "qa" true exampleDoc4
          (SendOutcome.response 200 "OK" "" exampleData4)).1 = []
    ∧ syncQaRun exampleTitle4 exampleBody4 "QA" "qa" true
        (syncQaRun exampleTitle4 exampleBody4 "QA" "qa" true exampleDoc4
          (SendOutcome.response 200 "OK" "" exampleData4)).1 (SendOutcome.failure "unreachable")
      = ((syncQaRun exampleTitle4 exampleBody4 "QA" "qa" true exampleDoc4
          (SendOutcome.response 200 "OK" "" exampleData4)).1, SyncMsg.empty) :=
  syncIdempotentSecondRunEmpty exampleTitle4 exampleBody4 "QA" "qa" exampleDoc4
    200 "OK" "" exampleData4 (SendOutcome.failure "unreachable")
    (by intro n hn
        rcases List.mem_singleton.mp hn with rfl
        decide)
    (by intro n hn
        rcases List.mem_singleton.mp hn with rfl
        exact Or.inl rfl)
    (by decide)
    (by intro r hr p hp
        have hr2 : r = ⟨some "1:2", some (signatureOf "1:2" "qa" "Broken button"), some 201⟩ := by
          simpa [exampleData4] using hr
        subst hr2
        have hqv : qualifies ((collectIssues exampleTitle4 exampleBody4 "QA" "qa" true
              exampleDoc4).map IssueRequestItem.nodeId)
            (⟨some "1:2", some (signatureOf "1:2" "qa" "Broken button"), some 201⟩ : ResItemC)
            = some ("1:2", signatureOf "1:2" "qa" "Broken button") := by decide
        rw [hqv] at hp
        injection hp with hp2
        subst hp2
        exact hashString_safe _)
    (by decide)
